import Mathlib

/-!
Chalk C API helper library (`apps/ck/lib/capilib.c`)

A shallow embedding of the higher level helpers built on the base Chalk C API:
`CkCheckArgument`, `CkCheckArguments`, `CkDeclareVariables`, `CkReturnNull`,
`CkReturnInteger` and `CkReturnString`.

The helpers are translated from `capilib.c`. The base API they call
(`CkGetType`, `CkPushNull`, `CkStackReplace`, `CkCall`, ...) lives in files that
are not part of this source tree; each of those primitives is modelled from the
design document and says so in its doc comment.

The processing of the command line by `main` (`apps/ck/app/chalk.c`) is
embedded too, with the C library routine `getopt_long` it relies on.

Conventions of the embedding:
* a C routine that can hit a `CK_ASSERT` or read outside an object returns
  `none` in that case, `some` of its result otherwise;
* `INTN` stack indices are `Int`, counts (`UINTN`) are `Nat`;
* the value stack of the active call is a list, base slot first, so that the
  top of the stack is the last element.
-/

namespace Chalk

/-! ## Type tags (`CK_API_TYPE`) -/

/-- Value of `CkTypeInvalid`. -/
@[match_pattern] abbrev CkTypeInvalid : Nat := 0
/-- Value of `CkTypeNull`. -/
@[match_pattern] abbrev CkTypeNull : Nat := 1
/-- Value of `CkTypeInteger`. -/
@[match_pattern] abbrev CkTypeInteger : Nat := 2
/-- Value of `CkTypeString`. -/
@[match_pattern] abbrev CkTypeString : Nat := 3
/-- Value of `CkTypeDict`. -/
@[match_pattern] abbrev CkTypeDict : Nat := 4
/-- Value of `CkTypeList`. -/
@[match_pattern] abbrev CkTypeList : Nat := 5
/-- Value of `CkTypeFunction`. -/
@[match_pattern] abbrev CkTypeFunction : Nat := 6
/-- Value of `CkTypeObject`. -/
@[match_pattern] abbrev CkTypeObject : Nat := 7
/-- Value of `CkTypeData`. -/
@[match_pattern] abbrev CkTypeData : Nat := 8
/-- Value of `CkTypeCount`, the number of tags. -/
abbrev CkTypeCount : Nat := 9

/-- The global `CkApiTypeNames[CkTypeCount]` of `capilib.c`, in source order. -/
def CkApiTypeNames : List String :=
  ["INVALID",  -- CkTypeInvalid
   "null",     -- CkTypeNull
   "integer",  -- CkTypeInteger
   "string",   -- CkTypeString
   "dict",     -- CkTypeDict
   "list",     -- CkTypeList
   "function", -- CkTypeFunction
   "object",   -- CkTypeObject
   "data"]     -- CkTypeData

/-! ## Data model -/

/-- Modelled from the spec: the `Value` field of a variable descriptor is a
`PVOID` that is "string | opaque pointer (interpretation depends on Type)".
A pointer to text carries the bytes it points at, up to the end of the buffer;
any other pointer is an address. -/
inductive CK_POINTER where
  | cstring (Text : String)
  | address (Address : Nat)
  deriving DecidableEq, Repr

/-- Modelled from the spec: a tagged value of the value stack ("ordered
sequence of tagged values"), one constructor per valid type tag. Dicts, lists
and objects (modules among them) are references into the heap of the VM; a
function records its native entry point, its visible name, its declared arity
and the module it is registered in; a data value records the opaque pointer and
its finalizer, if any. -/
inductive CkValue where
  | null
  | integer (Integer : Int)
  | string (Text : String)
  | dict (Ref : Nat)
  | list (Ref : Nat)
  | function (Entry : CK_POINTER) (Name : String) (Arity : Int) (Module : Nat)
  | object (Ref : Nat)
  | data (Pointer : CK_POINTER) (Finalizer : Option Nat)
  deriving DecidableEq, Repr

/-- Modelled from the spec: the heap objects this layer creates or updates: a
dict and a list with their contents, and a module, "a namespace of bound
variables" (most recent binding of a name first). -/
inductive CkObject where
  | dict (Entries : List (CkValue × CkValue))
  | list (Elements : List CkValue)
  | module (Variables : List (String × CkValue))
  deriving DecidableEq, Repr

/-- Modelled from the spec: the closure of a call frame, "used solely to
recover a human-readable function name for diagnostics". -/
structure CK_CLOSURE where
  FunctionName : String
  deriving DecidableEq, Repr

/-- Modelled from the spec: a call frame, "the VM's record of an in-progress
function invocation"; `capilib.c` reads its `Closure` field only. -/
structure CK_CALL_FRAME where
  Closure : CK_CLOSURE
  deriving DecidableEq, Repr

/-- Modelled from the spec: the execution context (`CK_FIBER`). `capilib.c`
uses `Frames`, `FrameCount` (the length of `Frames`) and `Error`; `Stack` holds
the slots of the active call, base slot (slot 0, the receiver and result slot)
first and top of stack last. `Error` is `CkValue.null` when no error is set. -/
structure CK_FIBER where
  Stack : List CkValue
  Frames : List CK_CALL_FRAME
  Error : CkValue
  deriving DecidableEq, Repr

/-- Modelled from the spec: the virtual machine (`CK_VM`): the running fiber
(`Vm->Fiber`, `NULL` when nothing runs) and the object heap. -/
structure CK_VM where
  Fiber : Option CK_FIBER
  Heap : List CkObject
  deriving DecidableEq, Repr

/-- Modelled from the spec: a variable descriptor
`{Name, Type, Value, Integer}`; a `NULL` name is `none`, and the field `Type`
is called `ApiType` here. -/
structure CK_VARIABLE_DESCRIPTION where
  Name : Option String
  ApiType : Nat
  Value : CK_POINTER
  Integer : Int
  deriving DecidableEq, Repr

/-! ## Base API, not part of this source tree -/

/-- Modelled from the spec: the tag of a value, one of the eight valid tags. -/
def CkValue.apiType : CkValue → Nat
  | .null => CkTypeNull
  | .integer _ => CkTypeInteger
  | .string _ => CkTypeString
  | .dict _ => CkTypeDict
  | .list _ => CkTypeList
  | .function _ _ _ _ => CkTypeFunction
  | .object _ => CkTypeObject
  | .data _ _ => CkTypeData

/-- Modelled from the spec: resolution of a signed stack index
(`CkpGetStackIndex`): "positive indices count upward from the base of the
current call frame (index 1 = first argument); negative indices count from the
top of the stack downward". An index outside the slots of the call is `none`. -/
def CkpGetStackIndex (Fiber : CK_FIBER) (Index : Int) : Option Nat :=
  if 0 ≤ Index then
    if Index < Fiber.Stack.length then some Index.toNat else none
  else
    if 0 ≤ (Fiber.Stack.length : Int) + Index then
      some ((Fiber.Stack.length : Int) + Index).toNat
    else none

/-- Modelled from the spec: `typeOf(index) -> TypeTag` (`CkGetType`). -/
def CkGetType (Vm : CK_VM) (StackIndex : Int) : Option Nat :=
  match Vm.Fiber with
  | none => none
  | some Fiber =>
    match CkpGetStackIndex Fiber StackIndex with
    | none => none
    | some Slot => (Fiber.Stack[Slot]?).map CkValue.apiType

/-- Modelled from the spec: `stackSize() -> integer` (`CkGetStackSize`), the
number of slots of the active call. -/
def CkGetStackSize (Vm : CK_VM) : Option Nat :=
  Vm.Fiber.map fun Fiber => Fiber.Stack.length

/-- Modelled from the spec: the name of the function of a closure
(`CkpGetFunctionName`). -/
def CkpGetFunctionName (Closure : CK_CLOSURE) : String :=
  Closure.FunctionName

/-- An argument of `CkpStringFormat`: a C string for `%s`, an `INT` for `%d`. -/
inductive CK_FORMAT_ARGUMENT where
  | text (Text : String)
  | int (Value : Int)
  deriving DecidableEq, Repr

/-- Modelled from the spec: the body of `CkpStringFormat`. The format is
copied to the output; each `%s` is replaced by the next argument, a string,
copied verbatim, and each `%d` by the next argument, an integer, in decimal.
A conversion whose argument is missing or of the other kind, and any other use
of `%`, is `none`: the design document describes these two conversions only. -/
def CkpStringFormat.expand : List Char → List CK_FORMAT_ARGUMENT → Option (List Char)
  | [], _ => some []
  | c :: rest, args =>
    if c = '%' then
      match rest with
      | [] => none
      | d :: rest' =>
        if d = 's' then
          match args with
          | .text s :: args' => (CkpStringFormat.expand rest' args').map (s.data ++ ·)
          | _ => none
        else if d = 'd' then
          match args with
          | .int n :: args' => (CkpStringFormat.expand rest' args').map ((toString n).data ++ ·)
          | _ => none
        else none
    else
      (CkpStringFormat.expand rest args).map (c :: ·)

/-- Modelled from the spec: `CkpStringFormat`, which "formats a diagnostic"
from a template and returns it as a string value. -/
def CkpStringFormat (Format : String) (Arguments : List CK_FORMAT_ARGUMENT) : Option CkValue :=
  (CkpStringFormat.expand Format.data Arguments).map fun out => CkValue.string (String.mk out)

/-- Modelled from the spec: `push<T>(value)`: the value becomes the new top of
the stack of the running fiber. Stack capacity (`ensureCapacity`) is not
modelled: `capilib.c` never consults it and the list has room for every push. -/
def CkpPush (Vm : CK_VM) (Value : CkValue) : Option CK_VM :=
  match Vm.Fiber with
  | none => none
  | some Fiber =>
    some { Vm with Fiber := some { Fiber with Stack := Fiber.Stack ++ [Value] } }

/-- Modelled from the spec: push null (`CkPushNull`). -/
def CkPushNull (Vm : CK_VM) : Option CK_VM :=
  CkpPush Vm CkValue.null

/-- Modelled from the spec: push an integer (`CkPushInteger`). -/
def CkPushInteger (Vm : CK_VM) (Integer : Int) : Option CK_VM :=
  CkpPush Vm (CkValue.integer Integer)

/-- Modelled from the spec: `CkPushString`: "string push copies the supplied
bytes"; "pushed strings are length-prefixed copies, not
null-terminator-dependent". The new value holds the first `Length` bytes of the
buffer; a buffer shorter than `Length` would be read past its end (`none`). -/
def CkPushString (Vm : CK_VM) (Buffer : String) (Length : Nat) : Option CK_VM :=
  if Length ≤ Buffer.data.length then
    CkpPush Vm (CkValue.string (String.mk (Buffer.data.take Length)))
  else none

/-- Modelled from the spec: `CkPushDict` pushes "a freshly created empty
container": a new heap object, referenced by the pushed value. -/
def CkPushDict (Vm : CK_VM) : Option CK_VM :=
  CkpPush { Vm with Heap := Vm.Heap ++ [CkObject.dict []] } (CkValue.dict Vm.Heap.length)

/-- Modelled from the spec: `CkPushList` pushes "a freshly created empty
container": a new heap object, referenced by the pushed value. -/
def CkPushList (Vm : CK_VM) : Option CK_VM :=
  CkpPush { Vm with Heap := Vm.Heap ++ [CkObject.list []] } (CkValue.list Vm.Heap.length)

/-- Modelled from the spec: `CkPushData` pushes "an opaque data value" wrapping
the pointer, with the given finalizer (`NULL` is `none`). -/
def CkPushData (Vm : CK_VM) (Data : CK_POINTER) (Finalizer : Option Nat) : Option CK_VM :=
  CkpPush Vm (CkValue.data Data Finalizer)

/-- Modelled from the spec: the module a stack index designates: the slot must
hold an object whose heap object is a module. Returns the heap reference and
the variables of the module. -/
def CkpGetModule (Vm : CK_VM) (Fiber : CK_FIBER) (StackIndex : Int) :
    Option (Nat × List (String × CkValue)) :=
  match CkpGetStackIndex Fiber StackIndex with
  | none => none
  | some Slot =>
    match Fiber.Stack[Slot]? with
    | some (CkValue.object Ref) =>
      match Vm.Heap[Ref]? with
      | some (CkObject.module Variables) => some (Ref, Variables)
      | _ => none
    | _ => none

/-- Modelled from the spec: `CkPushFunction` creates "a native function binding
at the module, using the descriptor's Value as the native entry point
reference, Name as the externally visible identifier, and Integer as the
declared arity", and pushes it. -/
def CkPushFunction (Vm : CK_VM) (Function : CK_POINTER) (Name : String)
    (ArgumentCount : Int) (ModuleIndex : Int) : Option CK_VM :=
  match Vm.Fiber with
  | none => none
  | some Fiber =>
    match CkpGetModule Vm Fiber ModuleIndex with
    | none => none
    | some (Ref, _) => CkpPush Vm (CkValue.function Function Name ArgumentCount Ref)

/-- Modelled from the spec: `CkGetVariable` looks up "an existing module
variable" by name in the module at the stack index and pushes its value. A name
that is not bound in the module is outside the described contract (`none`). -/
def CkGetVariable (Vm : CK_VM) (StackIndex : Int) (Name : String) : Option CK_VM :=
  match Vm.Fiber with
  | none => none
  | some Fiber =>
    match CkpGetModule Vm Fiber StackIndex with
    | none => none
    | some (_, Variables) =>
      match Variables.lookup Name with
      | none => none
      | some Value => CkpPush Vm Value

/-- Modelled from the spec: `CkSetVariable` pops the top of the stack and binds
it "under the descriptor's Name as a variable of the target module". The index
is resolved while the value is still on the stack. -/
def CkSetVariable (Vm : CK_VM) (StackIndex : Int) (Name : String) : Option CK_VM :=
  match Vm.Fiber with
  | none => none
  | some Fiber =>
    match CkpGetModule Vm Fiber StackIndex, Fiber.Stack.getLast? with
    | some (Ref, Variables), some Value =>
      some { Fiber := some { Fiber with Stack := Fiber.Stack.dropLast },
             Heap := Vm.Heap.set Ref (CkObject.module ((Name, Value) :: Variables)) }
    | _, _ => none

/-- Modelled from the spec: `CkStackPop` removes the top of the stack. -/
def CkStackPop (Vm : CK_VM) : Option CK_VM :=
  match Vm.Fiber with
  | none => none
  | some Fiber =>
    if Fiber.Stack.length = 0 then none
    else some { Vm with Fiber := some { Fiber with Stack := Fiber.Stack.dropLast } }

/-- Modelled from the spec: `replace(index, valueAtTopOfStack)`
(`CkStackReplace`) "overwrites the stack entry at `index` with the current top
value and pops the top". -/
def CkStackReplace (Vm : CK_VM) (StackIndex : Int) : Option CK_VM :=
  match Vm.Fiber with
  | none => none
  | some Fiber =>
    match Fiber.Stack.getLast?, CkpGetStackIndex Fiber StackIndex with
    | some Source, some Destination =>
      some { Vm with
             Fiber := some { Fiber with
                             Stack := (Fiber.Stack.set Destination Source).dropLast } }
    | _, _ => none

/-- Modelled from the spec: what a call did. The callee is code of the
embedder or of the script; this layer sees only whether it succeeded and with
which result, or failed, and then which Error Value it set and which value it
left in the slot of the callable (the one slot `CkDeclareVariables` pops to
rebalance the stack after a failure). -/
inductive CK_CALL_OUTCOME where
  | returned (Result : CkValue)
  | failed (Error : CkValue) (Left : CkValue)
  deriving DecidableEq, Repr

/-- The behaviour of callables: a parameter of the model, mapping the VM at the
time of the call, the callable and its arguments to the outcome of the call. -/
abbrev CK_INVOKE := CK_VM → CkValue → List CkValue → CK_CALL_OUTCOME

/-- Modelled from the spec: `call(argCount) -> bool` (`CkCall`) "invokes the
callable at the appropriate stack position with `argCount` arguments already
pushed; returns false and leaves an Error Value set if the call failed". The
callable and its arguments are replaced by the result of the call. -/
def CkCall (Invoke : CK_INVOKE) (Vm : CK_VM) (ArgumentCount : Nat) : Option (Bool × CK_VM) :=
  match Vm.Fiber with
  | none => none
  | some Fiber =>
    if Fiber.Stack.length < ArgumentCount + 1 then none
    else
      let Base := Fiber.Stack.length - (ArgumentCount + 1)
      match Fiber.Stack[Base]? with
      | none => none
      | some Callable =>
        match Invoke Vm Callable (Fiber.Stack.drop (Base + 1)) with
        | CK_CALL_OUTCOME.returned Result =>
          some (true,
            { Vm with
              Fiber := some { Fiber with Stack := Fiber.Stack.take Base ++ [Result] } })
        | CK_CALL_OUTCOME.failed Error Left =>
          some (false,
            { Vm with
              Fiber := some { Fiber with
                              Stack := Fiber.Stack.take Base ++ [Left],
                              Error := Error } })

/-- The C library routine `strlen`: the number of bytes before the first NUL
byte; the end of the text counts as the terminator. -/
def strlen (Text : String) : Nat :=
  (Text.data.takeWhile fun c => c ≠ Char.ofNat 0).length

/-- The C cast `(INT)StackIndex`: the low 32 bits of the index, read as a
signed two's complement number. -/
def castINT (Value : Int) : Int :=
  (Value + 2 ^ 31) % 2 ^ 32 - 2 ^ 31

/-! ## `capilib.c` -/

/-- The routine `CkCheckArgument` of `capilib.c`: validates that the argument at
`StackIndex` has the tag `ApiType` (the parameter `Type` of the C routine); if
it has not, stores the formatted error in the fiber. Returns the `BOOL` and the
VM afterwards. -/
def CkCheckArgument (Vm : CK_VM) (StackIndex : Int) (ApiType : Nat) : Option (Bool × CK_VM) :=
  match CkGetType Vm StackIndex with
  | none => none
  | some FoundType =>
    -- CK_ASSERT((FoundType < CkTypeCount) && (Type < CkTypeCount));
    if ¬ (FoundType < CkTypeCount ∧ ApiType < CkTypeCount) then none
    else if FoundType = ApiType then some (true, Vm)
    else
      match Vm.Fiber with
      | none => none
      | some Fiber =>
        -- CK_ASSERT((Fiber != NULL) && (Fiber->FrameCount != 0));
        if Fiber.Frames.length = 0 then none
        else
          match Fiber.Frames[Fiber.Frames.length - 1]?,
                CkApiTypeNames[ApiType]?, CkApiTypeNames[FoundType]? with
          | some Frame, some TypeName, some FoundName =>
            let Closure := Frame.Closure
            let Name := CkpGetFunctionName Closure
            match CkpStringFormat "%s expects %s for argument %d, got %s"
                    [.text Name, .text TypeName, .int (castINT StackIndex),
                     .text FoundName] with
            | none => none
            | some Error =>
              some (false, { Vm with Fiber := some { Fiber with Error := Error } })
          | _, _, _ => none

/-- The loop of `CkCheckArguments`: `Remaining` is `Count - Index`, and
`ArgumentList` is what `va_arg` has not consumed yet. -/
def CkCheckArguments.loop (Vm : CK_VM) :
    (Remaining : Nat) → (Index : Nat) → (ArgumentList : List Nat) → Option (Bool × CK_VM)
  | 0, _, _ => some (true, Vm)
  | _ + 1, _, [] => none
  | Remaining + 1, Index, ApiType :: ArgumentList =>
    match CkCheckArgument Vm ((Index : Int) + 1) ApiType with
    | none => none
    | some (false, Vm1) => some (false, Vm1)
    | some (true, Vm1) => CkCheckArguments.loop Vm1 Remaining (Index + 1) ArgumentList

/-- The routine `CkCheckArguments` of `capilib.c`: validates the arguments
`1..Count` against the variadic list of expected tags. -/
def CkCheckArguments (Vm : CK_VM) (Count : Nat) (ArgumentList : List Nat) :
    Option (Bool × CK_VM) :=
  CkCheckArguments.loop Vm Count 0 ArgumentList

/-- The `switch (Variables->Type)` of `CkDeclareVariables`: leaves the value of
the descriptor on top of the stack. -/
def CkDeclareVariables.push (Invoke : CK_INVOKE) (Vm : CK_VM) (ModuleIndex : Int)
    (Name : String) (Variable : CK_VARIABLE_DESCRIPTION) : Option CK_VM :=
  match Variable.ApiType with
  | CkTypeNull => CkPushNull Vm
  | CkTypeInteger => CkPushInteger Vm Variable.Integer
  | CkTypeString =>
    match Variable.Value with
    | CK_POINTER.cstring Text => CkPushString Vm Text (strlen Text)
    | CK_POINTER.address _ => none
  | CkTypeDict => CkPushDict Vm
  | CkTypeList => CkPushList Vm
  | CkTypeFunction => CkPushFunction Vm Variable.Value Name Variable.Integer ModuleIndex
  | CkTypeObject =>
    match Variable.Value with
    | CK_POINTER.cstring Text =>
      match CkGetVariable Vm ModuleIndex Text with
      | none => none
      | some Vm1 =>
        match CkCall Invoke Vm1 0 with
        | none => none
        | some (true, Vm2) => some Vm2
        | some (false, Vm2) =>
          match CkStackPop Vm2 with
          | none => none
          | some Vm3 => CkPushNull Vm3
    | CK_POINTER.address _ => none
  | CkTypeData => CkPushData Vm Variable.Value none
  | _ => none  -- CK_ASSERT(FALSE);

/-- The body of the `while` loop of `CkDeclareVariables` for a descriptor whose
name is not `NULL`: the `switch`, then `CkSetVariable`. -/
def CkDeclareVariables.body (Invoke : CK_INVOKE) (ModuleIndex : Int) (Vm : CK_VM)
    (Name : String) (Variable : CK_VARIABLE_DESCRIPTION) : Option CK_VM :=
  match CkDeclareVariables.push Invoke Vm ModuleIndex Name Variable with
  | none => none
  | some Vm1 => CkSetVariable Vm1 ModuleIndex Name

/-- The `while (Variables->Name != NULL)` loop of `CkDeclareVariables`, with
`ModuleIndex` already made absolute. Running off the end of the array without
meeting a `NULL` name is a read outside the array (`none`). -/
def CkDeclareVariables.loop (Invoke : CK_INVOKE) (ModuleIndex : Int) :
    CK_VM → List CK_VARIABLE_DESCRIPTION → Option CK_VM
  | _, [] => none
  | Vm, Variable :: Variables =>
    match Variable.Name with
    | none => some Vm
    | some Name =>
      match CkDeclareVariables.body Invoke ModuleIndex Vm Name Variable with
      | none => none
      | some Vm1 => CkDeclareVariables.loop Invoke ModuleIndex Vm1 Variables

/-- The routine `CkDeclareVariables` of `capilib.c`: registers an array of
Chalk objects in the module at `ModuleIndex`. -/
def CkDeclareVariables (Invoke : CK_INVOKE) (Vm : CK_VM) (ModuleIndex : Int)
    (Variables : List CK_VARIABLE_DESCRIPTION) : Option CK_VM :=
  if ModuleIndex < 0 then
    match CkGetStackSize Vm with
    | none => none
    | some Size =>
      -- ModuleIndex += CkGetStackSize(Vm); CK_ASSERT(ModuleIndex >= 0);
      if 0 ≤ ModuleIndex + (Size : Int) then
        CkDeclareVariables.loop Invoke (ModuleIndex + (Size : Int)) Vm Variables
      else none
  else CkDeclareVariables.loop Invoke ModuleIndex Vm Variables

/-- The routine `CkReturnNull` of `capilib.c`: sets null as the return value. -/
def CkReturnNull (Vm : CK_VM) : Option CK_VM :=
  match CkPushNull Vm with
  | none => none
  | some Vm1 => CkStackReplace Vm1 0

/-- The routine `CkReturnInteger` of `capilib.c`: sets an integer as the return
value. -/
def CkReturnInteger (Vm : CK_VM) (Integer : Int) : Option CK_VM :=
  match CkPushInteger Vm Integer with
  | none => none
  | some Vm1 => CkStackReplace Vm1 0

/-- The routine `CkReturnString` of `capilib.c`: creates a new string and sets
it as the return value. -/
def CkReturnString (Vm : CK_VM) (Buffer : String) (Length : Nat) : Option CK_VM :=
  match CkPushString Vm Buffer Length with
  | none => none
  | some Vm1 => CkStackReplace Vm1 0

/-! ## The effect of one descriptor, stated without the stack -/

/-- The VM in which `CkDeclareVariables` calls the constructor of an Object
descriptor: the callable has been pushed on the stack. -/
def CkDeclareVariables.callVm (Vm : CK_VM) (Fiber : CK_FIBER) (Callable : CkValue) : CK_VM :=
  { Vm with Fiber := some { Fiber with Stack := Fiber.Stack ++ [Callable] } }

/-- What the `switch` of `CkDeclareVariables` amounts to for one descriptor, in
a VM whose fiber is `Fiber` and whose target module is the heap object `Ref`
with the variables `Variables`: the value to bind, the Error Value of the fiber
afterwards, and the heap objects created. `none` where the `switch` does not
produce a value. -/
def CkDeclareVariables.binding (Invoke : CK_INVOKE) (Vm : CK_VM) (Fiber : CK_FIBER) (Ref : Nat)
    (Variables : List (String × CkValue)) (Name : String)
    (Variable : CK_VARIABLE_DESCRIPTION) : Option (CkValue × CkValue × List CkObject) :=
  if Variable.ApiType = CkTypeNull then
    some (CkValue.null, Fiber.Error, [])
  else if Variable.ApiType = CkTypeInteger then
    some (CkValue.integer Variable.Integer, Fiber.Error, [])
  else if Variable.ApiType = CkTypeString then
    match Variable.Value with
    | CK_POINTER.cstring Text =>
      some (CkValue.string (String.mk (Text.data.take (strlen Text))), Fiber.Error, [])
    | CK_POINTER.address _ => none
  else if Variable.ApiType = CkTypeDict then
    some (CkValue.dict Vm.Heap.length, Fiber.Error, [CkObject.dict []])
  else if Variable.ApiType = CkTypeList then
    some (CkValue.list Vm.Heap.length, Fiber.Error, [CkObject.list []])
  else if Variable.ApiType = CkTypeFunction then
    some (CkValue.function Variable.Value Name Variable.Integer Ref, Fiber.Error, [])
  else if Variable.ApiType = CkTypeObject then
    match Variable.Value with
    | CK_POINTER.cstring Constructor =>
      match Variables.lookup Constructor with
      | none => none
      | some Callable =>
        match Invoke (CkDeclareVariables.callVm Vm Fiber Callable) Callable [] with
        | CK_CALL_OUTCOME.returned Result => some (Result, Fiber.Error, [])
        | CK_CALL_OUTCOME.failed Error _ => some (CkValue.null, Error, [])
    | CK_POINTER.address _ => none
  else if Variable.ApiType = CkTypeData then
    some (CkValue.data Variable.Value none, Fiber.Error, [])
  else none

/-- How a processed descriptor and the binding made for it are related: the
binding carries the name of the descriptor, and a Function descriptor is bound
to a function with the entry point, name and arity of the descriptor,
registered in the module `Ref`. -/
def CkDeclareVariables.bindingOf (Ref : Nat) (Variable : CK_VARIABLE_DESCRIPTION)
    (Binding : String × CkValue) : Prop :=
  Variable.Name = some Binding.1 ∧
    (Variable.ApiType = CkTypeFunction →
      Binding.2 = CkValue.function Variable.Value Binding.1 Variable.Integer Ref)

/-- The descriptors the loop of `CkDeclareVariables` processes: those before
the first descriptor whose name is `NULL`. -/
def CkDeclareVariables.processed (Variables : List CK_VARIABLE_DESCRIPTION) :
    List CK_VARIABLE_DESCRIPTION :=
  Variables.takeWhile fun Variable => Variable.Name.isSome

/-- The variables of the module a stack index designates, the latest binding
first: what the claims about `CkDeclareVariables` observe. -/
def moduleVariables (Vm : CK_VM) (StackIndex : Int) : Option (List (String × CkValue)) :=
  match Vm.Fiber with
  | none => none
  | some Fiber => (CkpGetModule Vm Fiber StackIndex).map fun Module => Module.2

/-- The value a name is bound to in the module a stack index designates. -/
def moduleVariable (Vm : CK_VM) (StackIndex : Int) (Name : String) : Option CkValue :=
  match moduleVariables Vm StackIndex with
  | none => none
  | some Variables => Variables.lookup Name

/-- The Error Value of the running fiber. -/
def errorValue (Vm : CK_VM) : Option CkValue :=
  Vm.Fiber.map fun Fiber => Fiber.Error

/-- Whether the `Value` of a descriptor is what its tag needs for the `switch`
of `CkDeclareVariables` to produce a value: text for a String descriptor, and
for an Object descriptor the name of a variable that is among the names
`Known` to be bound in the module. -/
def CkDeclareVariables.valueOk (Known : List String) (Variable : CK_VARIABLE_DESCRIPTION) :
    Bool :=
  if Variable.ApiType = CkTypeString then
    match Variable.Value with
    | CK_POINTER.cstring _ => true
    | CK_POINTER.address _ => false
  else if Variable.ApiType = CkTypeObject then
    match Variable.Value with
    | CK_POINTER.cstring Constructor => Known.contains Constructor
    | CK_POINTER.address _ => false
  else true

/-- Whether a table is one `CkDeclareVariables` can go through: it has a
descriptor with a `NULL` name, and each descriptor before it passes
`CkDeclareVariables.valueOk` for the names bound at entry and by the
descriptors before it. -/
def CkDeclareVariables.tableOk : List String → List CK_VARIABLE_DESCRIPTION → Bool
  | _, [] => false
  | Known, Variable :: Variables =>
    match Variable.Name with
    | none => true
    | some Name =>
      CkDeclareVariables.valueOk Known Variable &&
        CkDeclareVariables.tableOk (Name :: Known) Variables

/-! ## The interpreter application (`apps/ck/app/chalk.c`) -/

/-- The macro `CHALK_USAGE` of `chalk.c`. -/
def CHALK_USAGE : String :=
  "usage: chalk [options] [file] [arguments...]\n" ++
  "Chalk is a nifty scripting language. It's designed to be intuitive, \n" ++
  "small, and easily embeddable. Options are:\n" ++
  "  --debug-gc -- Stress the garbage collector.\n" ++
  "  --debug-compiler -- Print the compiled bytecode.\n" ++
  "  --help -- Show this help text and exit.\n" ++
  "  --version -- Print the application version information and exit.\n"

/-- The macro `CHALK_OPTIONS_STRING` of `chalk.c`. -/
def CHALK_OPTIONS_STRING : String := "hV"

/-- The macro `CHALK_OPTION_DEBUG_GC` of `chalk.c`. -/
def CHALK_OPTION_DEBUG_GC : Int := 257

/-- The macro `CHALK_OPTION_DEBUG_COMPILER` of `chalk.c`. -/
def CHALK_OPTION_DEBUG_COMPILER : Int := 258

/-- The `struct option` of `getopt.h`; a `NULL` name or flag is `none`. -/
structure option where
  name : Option String
  has_arg : Int
  flag : Option Nat
  val : Int
  deriving DecidableEq, Repr

/-- The value `no_argument` of `getopt.h`. -/
def no_argument : Int := 0

/-- The value `required_argument` of `getopt.h`. -/
def required_argument : Int := 1

/-- The global `ChalkLongOptions` of `chalk.c`, in source order, with its
terminating entry. -/
def ChalkLongOptions : List option :=
  [{ name := some "debug-gc", has_arg := no_argument, flag := none,
     val := CHALK_OPTION_DEBUG_GC },
   { name := some "debug-compiler", has_arg := no_argument, flag := none,
     val := CHALK_OPTION_DEBUG_COMPILER },
   { name := some "help", has_arg := no_argument, flag := none, val := ('h'.toNat : Int) },
   { name := some "verbose", has_arg := no_argument, flag := none, val := ('v'.toNat : Int) },
   { name := none, has_arg := 0, flag := none, val := 0 }]

/-- What `chalk.c` takes from headers that are not part of this source tree:
the two configuration flags and the version numbers of `chalk.h`, the
configuration `CkInitializeConfiguration` sets up, and `ENOMEM`. -/
structure CHALK_HEADERS where
  CK_CONFIGURATION_GC_STRESS : Nat
  CK_CONFIGURATION_DEBUG_COMPILER : Nat
  CHALK_VERSION_MAJOR : Nat
  CHALK_VERSION_MINOR : Nat
  CHALK_VERSION_REVISION : Nat
  InitialFlags : Nat
  ENOMEM : Int
  deriving DecidableEq, Repr

/-- The part of `CK_CONFIGURATION` that `chalk.c` writes. -/
structure CK_CONFIGURATION where
  Flags : Nat
  deriving DecidableEq, Repr

/-- The structure `CK_APP_CONTEXT` of `chalk.c`, without the pointers to the
VM and to the line buffer. -/
structure CK_APP_CONTEXT where
  Configuration : CK_CONFIGURATION
  LineNumber : Int
  deriving DecidableEq, Repr

/-- The state the C library keeps between calls of `getopt_long`: `optind`,
the index of the next element of `argv`, and the rest of the element being
read when it is a group of short options. -/
structure GETOPT where
  optind : Nat
  nextchar : List Char
  deriving DecidableEq, Repr

/-- The search of `getopt_long` through the table of long options for `Name`,
as the C library documents it: an entry whose name is `Name` is an exact match
and ends the search; an entry of which `Name` is a proper abbreviation is kept,
and a second such entry that differs from it makes the abbreviation ambiguous.
Returns the entry found, whether the abbreviation is ambiguous, and whether the
match is exact. -/
def getopt_long.search (Name : List Char) :
    List option → Option option → Bool → Option option × Bool × Bool
  | [], Found, Ambiguous => (Found, Ambiguous, false)
  | Entry :: Table, Found, Ambiguous =>
    match Entry.name with
    | none => (Found, Ambiguous, false)
    | some EntryName =>
      if Name.isPrefixOf EntryName.data then
        if Name.length = EntryName.data.length then (some Entry, Ambiguous, true)
        else
          match Found with
          | none => getopt_long.search Name Table (some Entry) Ambiguous
          | some First =>
            if First.has_arg ≠ Entry.has_arg ∨ First.flag ≠ Entry.flag ∨
                First.val ≠ Entry.val then
              getopt_long.search Name Table Found true
            else getopt_long.search Name Table Found Ambiguous
      else getopt_long.search Name Table Found Ambiguous

/-- The C library routine `getopt_long`, as POSIX (`getopt`) and the C library
document it, without the reordering of `argv` some libraries do: it returns
`-1` at the end of the options (no element left, an element that is not an
option, or `--`); for `--name` or `--name=value` the `val` of the long option
found (`0` when the option has a flag), or `?` when the name is unknown or
ambiguous, a value is given to an option that takes none, or a required value
is missing; for a group of short options `-abc` one character per call, the
character itself when the option string has it, `?` when it has not. Messages
on `stderr` and `optarg` are left out: `main` does not read them. -/
def getopt_long (argv : List String) (optstring : String) (longopts : List option)
    (State : GETOPT) : Int × GETOPT :=
  let Missing : Int :=
    if optstring.data.head? = some ':' then (':'.toNat : Int) else ('?'.toNat : Int)
  let Short (c : Char) (Group : List Char) : Int × GETOPT :=
    let Next : GETOPT :=
      if Group = [] then { optind := State.optind + 1, nextchar := [] }
      else { optind := State.optind, nextchar := Group }
    match optstring.data.dropWhile (fun o => o ≠ c) with
    | [] => (('?'.toNat : Int), Next)
    | _ :: After =>
      if c = ':' then (('?'.toNat : Int), Next)
      else if After.head? = some ':' then
        if Group ≠ [] then ((c.toNat : Int), { optind := State.optind + 1, nextchar := [] })
        else if State.optind + 1 < argv.length then
          ((c.toNat : Int), { optind := State.optind + 2, nextchar := [] })
        else (Missing, { optind := State.optind + 1, nextchar := [] })
      else ((c.toNat : Int), Next)
  match State.nextchar with
  | c :: Group => Short c Group
  | [] =>
    match argv[State.optind]? with
    | none => (-1, State)
    | some Argument =>
      match Argument.data with
      | '-' :: '-' :: Text =>
        if Text = [] then (-1, { optind := State.optind + 1, nextchar := [] })
        else
          let Name := Text.takeWhile (fun c => c ≠ '=')
          let HasValue : Bool := Text.contains '='
          let Next : GETOPT := { optind := State.optind + 1, nextchar := [] }
          match getopt_long.search Name longopts none false with
          | (none, _, _) => (('?'.toNat : Int), Next)
          | (some Entry, Ambiguous, Exact) =>
            if Ambiguous ∧ ¬ Exact then (('?'.toNat : Int), Next)
            else
              let Value : Int := if Entry.flag = none then Entry.val else 0
              if HasValue then
                if Entry.has_arg = no_argument then (('?'.toNat : Int), Next)
                else (Value, Next)
              else if Entry.has_arg = required_argument then
                if State.optind + 1 < argv.length then
                  (Value, { optind := State.optind + 2, nextchar := [] })
                else (Missing, Next)
              else (Value, Next)
      | '-' :: c :: Group => Short c Group
      | _ => (-1, State)

/-- The routine `ChalkInitializeContext` of `chalk.c`: the status and the
context. `Line` tells whether `malloc` returned the line buffer. -/
def ChalkInitializeContext (Headers : CHALK_HEADERS) (Line : Bool) : Int × CK_APP_CONTEXT :=
  -- memset(Context, 0, sizeof(CK_APP_CONTEXT)); Context->LineNumber = 1;
  if Line = false then
    (Headers.ENOMEM, { Configuration := { Flags := 0 }, LineNumber := 1 })
  else
    -- CkInitializeConfiguration(&(Context->Configuration));
    (0, { Configuration := { Flags := Headers.InitialFlags }, LineNumber := 1 })

/-- How `main` leaves the processing of its options: by a `return` inside the
loop, by `goto MainEnd` (the status is returned after the context is
destroyed), by the failed `assert` of the `default` case (a build without
assertions goes to `MainEnd` with the status 2 there), or by the end of the
loop, after which `main` creates the VM with the configuration of the context
and reads the script name at `optind`. -/
inductive MAIN_OPTIONS where
  | returned (Status : Int)
  | mainEnd (Status : Int)
  | assertFailed
  | run (Context : CK_APP_CONTEXT) (optind : Nat)
  deriving DecidableEq, Repr

/-- The `while (TRUE)` loop of `main` that processes the control arguments.
Each turn of the loop is a call of `getopt_long`; `Turns` bounds their number
and `none` means the bound was too small. The second component is what has
been printed on the standard output. -/
def main.loop (Headers : CHALK_HEADERS) (Arguments : List String) :
    (Turns : Nat) → CK_APP_CONTEXT → GETOPT → List String →
      Option (MAIN_OPTIONS × List String)
  | 0, _, _, _ => none
  | Turns + 1, Context, State, Output =>
    match getopt_long Arguments CHALK_OPTIONS_STRING ChalkLongOptions State with
    | (Option, State1) =>
      if Option = -1 then some (MAIN_OPTIONS.run Context State1.optind, Output)
      else if Option = ('?'.toNat : Int) ∨ Option = (':'.toNat : Int) then
        some (MAIN_OPTIONS.mainEnd 2, Output)
      else if Option = CHALK_OPTION_DEBUG_GC then
        main.loop Headers Arguments Turns
          { Context with
            Configuration :=
              { Flags := Context.Configuration.Flags ||| Headers.CK_CONFIGURATION_GC_STRESS } }
          State1 Output
      else if Option = CHALK_OPTION_DEBUG_COMPILER then
        main.loop Headers Arguments Turns
          { Context with
            Configuration :=
              { Flags :=
                  Context.Configuration.Flags ||| Headers.CK_CONFIGURATION_DEBUG_COMPILER } }
          State1 Output
      else if Option = ('V'.toNat : Int) then
        some (MAIN_OPTIONS.returned 1,
          Output ++
            ["Chalk version " ++ toString Headers.CHALK_VERSION_MAJOR ++ "." ++
              toString Headers.CHALK_VERSION_MINOR ++ "." ++
              toString Headers.CHALK_VERSION_REVISION ++
              ". Copyright 2016 Minoca Corp. All Rights Reserved.\n"])
      else if Option = ('h'.toNat : Int) then
        some (MAIN_OPTIONS.returned 2, Output ++ [CHALK_USAGE])
      else
        -- assert(FALSE);
        some (MAIN_OPTIONS.assertFailed, Output)

/-- The number of calls of `getopt_long` that exhausts an argument vector:
one per character and one more per element, and the last one. -/
def main.turns (Arguments : List String) : Nat :=
  (Arguments.map fun Argument => Argument.data.length + 1).sum + 1

/-- The routine `main` of `chalk.c`, from its entry to the end of the
processing of the control arguments. `Line` tells whether `malloc` returned the
line buffer. -/
def main (Headers : CHALK_HEADERS) (Line : Bool) (Arguments : List String) :
    Option (MAIN_OPTIONS × List String) :=
  match ChalkInitializeContext Headers Line with
  | (Status, Context) =>
    if Status ≠ 0 then some (MAIN_OPTIONS.mainEnd 2, [])
    else
      main.loop Headers Arguments (main.turns Arguments) Context
        { optind := 1, nextchar := [] } []

/-! ## Example states -/

/-- A VM inside a call of `foo` made from `main`: slot 0 is the receiver, the
arguments are the string `"a"`, the integer `3` and a list. -/
def exampleCallVm : CK_VM :=
  { Fiber := some
      { Stack := [CkValue.null, CkValue.string "a", CkValue.integer 3, CkValue.list 0],
        Frames := [{ Closure := { FunctionName := "main" } },
                   { Closure := { FunctionName := "foo" } }],
        Error := CkValue.null },
    Heap := [CkObject.list []] }

/-- The fiber of `exampleCallVm`. -/
def exampleCallFiber : CK_FIBER :=
  { Stack := [CkValue.null, CkValue.string "a", CkValue.integer 3, CkValue.list 0],
    Frames := [{ Closure := { FunctionName := "main" } },
               { Closure := { FunctionName := "foo" } }],
    Error := CkValue.null }

/-- The VM `exampleCallVm` with an Error Value set. -/
def exampleCallVmWithError (Text : String) : CK_VM :=
  { Fiber := some { exampleCallFiber with Error := CkValue.string Text },
    Heap := [CkObject.list []] }

/-- Callables of the examples: the native function at address 1 returns the
integer 7; any other callable fails with an Error Value and leaves null. -/
def exampleInvoke : CK_INVOKE := fun _ Callable _ =>
  match Callable with
  | CkValue.function (CK_POINTER.address 1) _ _ _ =>
    CK_CALL_OUTCOME.returned (CkValue.integer 7)
  | _ => CK_CALL_OUTCOME.failed (CkValue.string "constructor failed") CkValue.null

/-- The fiber of `exampleModuleVm`: two modules on the stack above slot 0. -/
def exampleModuleFiber : CK_FIBER :=
  { Stack := [CkValue.null, CkValue.object 0, CkValue.object 1],
    Frames := [{ Closure := { FunctionName := "main" } }],
    Error := CkValue.null }

/-- A VM loading a module: no variable is bound yet, no Error Value is set. -/
def exampleModuleVm : CK_VM :=
  { Fiber := some exampleModuleFiber,
    Heap := [CkObject.module [], CkObject.module []] }

/-- The terminator of a descriptor table. -/
def exampleEnd : CK_VARIABLE_DESCRIPTION :=
  { Name := none, ApiType := CkTypeInvalid, Value := CK_POINTER.address 0, Integer := 0 }

/-- Function descriptor `Make`, whose entry point returns 7. -/
def exampleMake : CK_VARIABLE_DESCRIPTION :=
  { Name := some "Make", ApiType := CkTypeFunction, Value := CK_POINTER.address 1, Integer := 0 }

/-- Function descriptor `Bad`, whose entry point fails. -/
def exampleBad : CK_VARIABLE_DESCRIPTION :=
  { Name := some "Bad", ApiType := CkTypeFunction, Value := CK_POINTER.address 2, Integer := 0 }

/-- Object descriptor `Obj`, constructed by `Make`. -/
def exampleObj : CK_VARIABLE_DESCRIPTION :=
  { Name := some "Obj", ApiType := CkTypeObject, Value := CK_POINTER.cstring "Make",
    Integer := 0 }

/-- Object descriptor `Broken`, constructed by `Bad`. -/
def exampleBroken : CK_VARIABLE_DESCRIPTION :=
  { Name := some "Broken", ApiType := CkTypeObject, Value := CK_POINTER.cstring "Bad",
    Integer := 0 }

/-- Integer descriptor `X = 42`. -/
def exampleX : CK_VARIABLE_DESCRIPTION :=
  { Name := some "X", ApiType := CkTypeInteger, Value := CK_POINTER.address 0, Integer := 42 }

/-- String descriptor `S = "hi"`. -/
def exampleS : CK_VARIABLE_DESCRIPTION :=
  { Name := some "S", ApiType := CkTypeString, Value := CK_POINTER.cstring "hi", Integer := 0 }

/-- Integer descriptor whose name is the empty string, not `NULL`. -/
def exampleEmptyName : CK_VARIABLE_DESCRIPTION :=
  { Name := some "", ApiType := CkTypeInteger, Value := CK_POINTER.address 0, Integer := 5 }

/-- The variables of module 0 once `Make` and `Bad` are registered. -/
def exampleFunctions : List (String × CkValue) :=
  [("Bad", CkValue.function (CK_POINTER.address 2) "Bad" 0 0),
   ("Make", CkValue.function (CK_POINTER.address 1) "Make" 0 0)]

/-- The VM `exampleModuleVm` once `Make` and `Bad` are registered in module 0. -/
def exampleFunctionsVm : CK_VM :=
  { Fiber := some exampleModuleFiber,
    Heap := [CkObject.module exampleFunctions, CkObject.module []] }

/-! ## Auxiliary facts -/

/-- The template of `CkCheckArgument`, expanded: the four arguments are
inserted verbatim between the fixed pieces of text. -/
theorem CkpStringFormat_argument_error (Name TypeName FoundName : String) (Index : Int) :
    CkpStringFormat "%s expects %s for argument %d, got %s"
      [.text Name, .text TypeName, .int Index, .text FoundName]
    = some (CkValue.string (Name ++ " expects " ++ TypeName ++ " for argument "
        ++ toString Index ++ ", got " ++ FoundName)) := by
  have hfmt : ("%s expects %s for argument %d, got %s" : String).data
      = ['%', 's', ' ', 'e', 'x', 'p', 'e', 'c', 't', 's', ' ', '%', 's', ' ', 'f', 'o', 'r',
         ' ', 'a', 'r', 'g', 'u', 'm', 'e', 'n', 't', ' ', '%', 'd', ',', ' ', 'g', 'o', 't',
         ' ', '%', 's'] := by decide
  simp [CkpStringFormat, hfmt, CkpStringFormat.expand]
  apply String.ext
  simp only [String.data_append, List.append_assoc]
  rfl

/-- A tag returned by `CkGetType` is one of the valid tags. -/
theorem CkValue.apiType_lt (Value : CkValue) : Value.apiType < CkTypeCount := by
  cases Value <;> simp only [CkValue.apiType] <;> decide

theorem CkGetType_lt {Vm : CK_VM} {StackIndex : Int} {Found : Nat}
    (h : CkGetType Vm StackIndex = some Found) : Found < CkTypeCount := by
  unfold CkGetType at h
  split at h
  · simp at h
  · split at h
    · simp at h
    · simp only [Option.map_eq_some'] at h
      obtain ⟨v, -, rfl⟩ := h
      exact CkValue.apiType_lt v

/-- A valid index is at most the size of the stack away from zero. -/
theorem CkGetType_index_bound {Vm : CK_VM} {Fiber : CK_FIBER} {StackIndex : Int} {Found : Nat}
    (hFiber : Vm.Fiber = some Fiber) (h : CkGetType Vm StackIndex = some Found) :
    -(Fiber.Stack.length : Int) ≤ StackIndex ∧ StackIndex < Fiber.Stack.length := by
  unfold CkGetType at h
  rw [hFiber] at h
  simp only at h
  unfold CkpGetStackIndex at h
  split at h
  · simp at h
  · rename_i Slot hSlot
    split at hSlot
    · split at hSlot
      · omega
      · simp at hSlot
    · split at hSlot
      · omega
      · simp at hSlot

theorem castINT_of_range {Value : Int} (hlo : -2 ^ 31 ≤ Value) (hhi : Value < 2 ^ 31) :
    castINT Value = Value := by
  unfold castINT
  omega

/-- When the tags agree `CkCheckArgument` returns `TRUE` and leaves the VM alone. -/
theorem CkCheckArgument_of_match {Vm : CK_VM} {StackIndex : Int} {Expected : Nat}
    (h : CkGetType Vm StackIndex = some Expected) :
    CkCheckArgument Vm StackIndex Expected = some (true, Vm) := by
  have hlt := CkGetType_lt h
  simp [CkCheckArgument, h, hlt]

/-- The result of `CkCheckArgument` on a mismatch, before the cast of the index
is resolved. -/
theorem CkCheckArgument_of_mismatch {Vm : CK_VM} {Fiber : CK_FIBER} {Frame : CK_CALL_FRAME}
    {StackIndex : Int} {Expected Actual : Nat} {ExpectedName ActualName : String}
    (hFiber : Vm.Fiber = some Fiber) (hFrame : Fiber.Frames.getLast? = some Frame)
    (hActual : CkGetType Vm StackIndex = some Actual) (hMismatch : Actual ≠ Expected)
    (hExpectedName : CkApiTypeNames[Expected]? = some ExpectedName)
    (hActualName : CkApiTypeNames[Actual]? = some ActualName) :
    CkCheckArgument Vm StackIndex Expected
      = some (false,
          { Vm with
            Fiber := some
              { Fiber with
                Error := CkValue.string
                  (Frame.Closure.FunctionName ++ " expects " ++ ExpectedName
                    ++ " for argument " ++ toString (castINT StackIndex)
                    ++ ", got " ++ ActualName) } }) := by
  have hlt := CkGetType_lt hActual
  have hExpLt : Expected < CkTypeCount := by
    have := (List.getElem?_eq_some_iff.mp hExpectedName).1
    simpa [CkApiTypeNames] using this
  have hne : Fiber.Frames ≠ [] := by
    intro h0
    simp [h0] at hFrame
  have hlen : Fiber.Frames.length ≠ 0 := by
    simpa [List.length_eq_zero] using hne
  have hTop : Fiber.Frames[Fiber.Frames.length - 1]? = some Frame := by
    rw [← hFrame, List.getLast?_eq_getElem?]
  simp [CkCheckArgument, hActual, hlt, hExpLt, hMismatch, hFiber, hlen, hTop, hExpectedName,
    hActualName, CkpStringFormat_argument_error, CkpGetFunctionName]

theorem CkApiTypeNames_getElem? {Tag : Nat} (h : Tag < CkTypeCount) :
    ∃ Name, CkApiTypeNames[Tag]? = some Name := by
  have : Tag < CkApiTypeNames.length := by simpa [CkApiTypeNames] using h
  exact ⟨CkApiTypeNames[Tag], List.getElem?_eq_getElem this⟩

/-- With an active call frame, valid tags and a valid index, `CkCheckArgument`
returns, and returns `FALSE` on a mismatch. -/
theorem CkCheckArgument_mismatch_false {Vm : CK_VM} {Fiber : CK_FIBER}
    {StackIndex : Int} {Expected Actual : Nat}
    (hFiber : Vm.Fiber = some Fiber) (hFrame : Fiber.Frames.length ≠ 0)
    (hExpected : Expected < CkTypeCount)
    (hActual : CkGetType Vm StackIndex = some Actual) (hMismatch : Actual ≠ Expected) :
    ∃ Vm1, CkCheckArgument Vm StackIndex Expected = some (false, Vm1) := by
  obtain ⟨en, hen⟩ := CkApiTypeNames_getElem? hExpected
  obtain ⟨an, han⟩ := CkApiTypeNames_getElem? (CkGetType_lt hActual)
  have hne : Fiber.Frames ≠ [] := by
    intro h0
    simp [h0] at hFrame
  obtain ⟨Frame, hF⟩ : ∃ Frame, Fiber.Frames.getLast? = some Frame :=
    ⟨Fiber.Frames.getLast hne, List.getLast?_eq_getLast _ hne⟩
  exact ⟨_, CkCheckArgument_of_mismatch hFiber hF hActual hMismatch hen han⟩

/-- What a `TRUE` from `CkCheckArgument` means. -/
theorem CkCheckArgument_eq_true {Vm Vm1 : CK_VM} {StackIndex : Int} {Expected : Nat}
    (h : CkCheckArgument Vm StackIndex Expected = some (true, Vm1)) :
    CkGetType Vm StackIndex = some Expected ∧ Vm1 = Vm := by
  unfold CkCheckArgument at h
  split at h
  · simp at h
  · rename_i Found hFound
    split at h
    · simp at h
    · split at h
      · rename_i heq
        simp only [Option.some.injEq, Prod.mk.injEq, true_and] at h
        exact ⟨by rw [hFound, heq], h.symm⟩
      · split at h
        · simp at h
        · split at h
          · simp at h
          · split at h
            · simp only [CkpStringFormat_argument_error] at h
              simp at h
            · simp at h

/-- What a `FALSE` from `CkCheckArgument` means. -/
theorem CkCheckArgument_eq_false {Vm Vm1 : CK_VM} {StackIndex : Int} {Expected : Nat}
    (h : CkCheckArgument Vm StackIndex Expected = some (false, Vm1)) :
    ∃ Actual, CkGetType Vm StackIndex = some Actual ∧ Actual ≠ Expected := by
  unfold CkCheckArgument at h
  split at h
  · simp at h
  · rename_i Found hFound
    split at h
    · simp at h
    · split at h
      · simp at h
      · rename_i hne
        exact ⟨Found, hFound, hne⟩

/-- A slot of the active call has a tag. -/
theorem CkGetType_of_slot {Vm : CK_VM} {Fiber : CK_FIBER} {Index : Nat}
    (hFiber : Vm.Fiber = some Fiber) (h : Index < Fiber.Stack.length) :
    ∃ Found, CkGetType Vm (Index : Int) = some Found := by
  have h1 : (0 : Int) ≤ (Index : Int) := Int.ofNat_nonneg _
  have h2 : (Index : Int) < (Fiber.Stack.length : Int) := by exact_mod_cast h
  simp [CkGetType, hFiber, CkpGetStackIndex, h1, h2, List.getElem?_eq_getElem h]

/-- The loop of `CkCheckArguments` returns `TRUE` exactly when it could read
`Remaining` expected tags and each one is the tag of its argument; the VM is
then the one it started from. -/
theorem CkCheckArguments.loop_eq_true (Vm Vm1 : CK_VM) :
    ∀ (Remaining Index : Nat) (ArgumentList : List Nat),
      CkCheckArguments.loop Vm Remaining Index ArgumentList = some (true, Vm1) ↔
        (Remaining ≤ ArgumentList.length ∧ Vm1 = Vm ∧
          ∀ j, j < Remaining →
            CkGetType Vm (((Index + j : Nat) : Int) + 1) = ArgumentList[j]?) := by
  intro Remaining
  induction Remaining with
  | zero =>
    intro Index ArgumentList
    simp [CkCheckArguments.loop, eq_comm]
  | succ n ih =>
    intro Index ArgumentList
    cases ArgumentList with
    | nil => simp [CkCheckArguments.loop]
    | cons t rest =>
      simp only [CkCheckArguments.loop, List.length_cons, Nat.add_le_add_iff_right]
      constructor
      · intro h
        split at h
        · simp at h
        · simp at h
        · rename_i Vm2 hcheck
          obtain ⟨hget, rfl⟩ := CkCheckArgument_eq_true hcheck
          obtain ⟨hlen, hvm, hall⟩ := (ih (Index + 1) rest).mp h
          refine ⟨hlen, hvm, ?_⟩
          intro j hj
          cases j with
          | zero => simpa using hget
          | succ j =>
            have := hall j (by omega)
            simpa [Nat.add_assoc, Nat.add_comm 1 j] using this
      · rintro ⟨hlen, rfl, hall⟩
        have h0 := hall 0 (by omega)
        simp only [Nat.add_zero, List.getElem?_cons_zero] at h0
        rw [CkCheckArgument_of_match h0]
        simp only
        refine (ih (Index + 1) rest).mpr ⟨hlen, rfl, ?_⟩
        intro j hj
        have := hall (j + 1) (by omega)
        simpa [Nat.add_assoc, Nat.add_comm 1 j] using this

/-- The loop of `CkCheckArguments` returns `FALSE` exactly when some position
fails its check after every earlier position has passed; the VM is then the one
`CkCheckArgument` produced at that position from the VM the loop started from. -/
theorem CkCheckArguments.loop_eq_false (Vm Vm1 : CK_VM) :
    ∀ (Remaining Index : Nat) (ArgumentList : List Nat),
      CkCheckArguments.loop Vm Remaining Index ArgumentList = some (false, Vm1) ↔
        ∃ i Expected, i < Remaining ∧ ArgumentList[i]? = some Expected ∧
          (∀ j, j < i →
            CkGetType Vm (((Index + j : Nat) : Int) + 1) = ArgumentList[j]?) ∧
          CkCheckArgument Vm (((Index + i : Nat) : Int) + 1) Expected = some (false, Vm1) := by
  intro Remaining
  induction Remaining with
  | zero =>
    intro Index ArgumentList
    simp [CkCheckArguments.loop]
  | succ n ih =>
    intro Index ArgumentList
    cases ArgumentList with
    | nil => simp [CkCheckArguments.loop]
    | cons t rest =>
      simp only [CkCheckArguments.loop]
      constructor
      · intro h
        split at h
        · simp at h
        · rename_i Vm2 hcheck
          simp only [Option.some.injEq, Prod.mk.injEq, true_and] at h
          subst h
          exact ⟨0, t, by omega, by simp, by simp, by simpa using hcheck⟩
        · rename_i Vm2 hcheck
          obtain ⟨_, rfl⟩ := CkCheckArgument_eq_true hcheck
          obtain ⟨i, e, hi, he, hbefore, hfail⟩ := (ih (Index + 1) rest).mp h
          refine ⟨i + 1, e, by omega, by simpa using he, ?_, ?_⟩
          · intro j hj
            cases j with
            | zero =>
              have := (CkCheckArgument_eq_true hcheck).1
              simpa using this
            | succ j =>
              have := hbefore j (by omega)
              simpa [Nat.add_assoc, Nat.add_comm 1 j] using this
          · simpa [Nat.add_assoc, Nat.add_comm 1 i] using hfail
      · rintro ⟨i, e, hi, he, hbefore, hfail⟩
        cases i with
        | zero =>
          simp only [List.getElem?_cons_zero, Option.some.injEq] at he
          subst he
          simp only [Nat.add_zero] at hfail
          rw [hfail]
        | succ i =>
          have h0 := hbefore 0 (by omega)
          simp only [Nat.add_zero, List.getElem?_cons_zero] at h0
          rw [CkCheckArgument_of_match h0]
          simp only
          refine (ih (Index + 1) rest).mpr ⟨i, e, by omega, by simpa using he, ?_, ?_⟩
          · intro j hj
            have := hbefore (j + 1) (by omega)
            simpa [Nat.add_assoc, Nat.add_comm 1 j] using this
          · simpa [Nat.add_assoc, Nat.add_comm 1 i] using hfail

/-- With an active call frame, expected tags that are all valid, one per
position, and a stack that holds every position, the loop of `CkCheckArguments`
returns. -/
theorem CkCheckArguments.loop_returns (Vm : CK_VM) (Fiber : CK_FIBER)
    (hFiber : Vm.Fiber = some Fiber) (hFrame : Fiber.Frames.length ≠ 0) :
    ∀ (Remaining Index : Nat) (ArgumentList : List Nat),
      ArgumentList.length = Remaining →
      (∀ t ∈ ArgumentList, t < CkTypeCount) →
      Index + Remaining < Fiber.Stack.length →
      ∃ Result Vm1, CkCheckArguments.loop Vm Remaining Index ArgumentList
        = some (Result, Vm1) := by
  intro Remaining
  induction Remaining with
  | zero =>
    intro Index ArgumentList _ _ _
    exact ⟨true, Vm, by simp [CkCheckArguments.loop]⟩
  | succ n ih =>
    intro Index ArgumentList hlen htags hslots
    cases ArgumentList with
    | nil => simp at hlen
    | cons t rest =>
      obtain ⟨Found, hFound⟩ :=
        @CkGetType_of_slot Vm Fiber (Index + 1) hFiber (by omega)
      have hFound1 : CkGetType Vm ((Index : Int) + 1) = some Found := by
        simpa using hFound
      simp only [CkCheckArguments.loop]
      by_cases heq : Found = t
      · subst heq
        rw [CkCheckArgument_of_match hFound1]
        simp only
        exact ih (Index + 1) rest (by simpa using hlen)
          (fun u hu => htags u (List.mem_cons_of_mem _ hu)) (by omega)
      · obtain ⟨Vm1, hVm1⟩ := CkCheckArgument_mismatch_false hFiber hFrame
          (htags t (List.mem_cons_self _ _)) hFound1 heq
        rw [hVm1]
        exact ⟨false, Vm1, rfl⟩

/-! ## Argument validation -/

/-- C1: in a VM with an active call frame, for a stack index whose value has
the tag `Actual` and an expected tag below the tag count, `CkCheckArgument`
returns, and returns `TRUE` if and only if the expected tag is the actual one. -/
theorem CkCheckArgument_true_iff (Vm : CK_VM) (Fiber : CK_FIBER) (StackIndex : Int)
    (Expected Actual : Nat)
    (hFiber : Vm.Fiber = some Fiber) (hFrame : Fiber.Frames.length ≠ 0)
    (hExpected : Expected < CkTypeCount) (hActualLt : Actual < CkTypeCount)
    (hActual : CkGetType Vm StackIndex = some Actual) :
    ∃ Result Vm1, CkCheckArgument Vm StackIndex Expected = some (Result, Vm1) ∧
      (Result = true ↔ Expected = Actual) := by
  have _ := hActualLt
  by_cases heq : Actual = Expected
  · subst heq
    exact ⟨true, Vm, CkCheckArgument_of_match hActual, by simp⟩
  · obtain ⟨Vm1, hVm1⟩ :=
      CkCheckArgument_mismatch_false hFiber hFrame hExpected hActual heq
    refine ⟨false, Vm1, hVm1, ?_⟩
    simp only [Bool.false_eq_true, false_iff]
    exact fun h => heq h.symm

/-- C1 at `exampleCallVm`: argument 1 is a string, an integer is expected. -/
theorem CkCheckArgument_true_iff_witness :
    exampleCallVm.Fiber = some exampleCallFiber ∧ exampleCallFiber.Frames.length ≠ 0 ∧
      CkTypeInteger < CkTypeCount ∧ CkTypeString < CkTypeCount ∧
      CkGetType exampleCallVm 1 = some CkTypeString ∧
      ∃ Result Vm1, CkCheckArgument exampleCallVm 1 CkTypeInteger = some (Result, Vm1) ∧
        (Result = true ↔ CkTypeInteger = CkTypeString) :=
  ⟨rfl, by decide, by decide, by decide, by decide,
    CkCheckArgument_true_iff exampleCallVm exampleCallFiber 1 CkTypeInteger CkTypeString
      rfl (by decide) (by decide) (by decide) (by decide)⟩

/-- C2: `CkCheckArguments` returns `FALSE` with the VM `Vm1` exactly when there
is a lowest position `i + 1` in `1..Count` whose actual tag differs from the
expected one (every position before it matches), and `Vm1` is what
`CkCheckArgument` produces at that position from the VM at entry: the Error
Value is the diagnostic of that position. Nothing is required of, or read at,
the positions after it. -/
theorem CkCheckArguments_false_iff (Vm Vm1 : CK_VM) (Count : Nat) (ArgumentList : List Nat) :
    CkCheckArguments Vm Count ArgumentList = some (false, Vm1) ↔
      ∃ (i : Nat) (Expected : Nat), i < Count ∧ ArgumentList[i]? = some Expected ∧
        (∀ j : Nat, j < i → CkGetType Vm ((j : Int) + 1) = ArgumentList[j]?) ∧
        (∃ Actual, CkGetType Vm ((i : Int) + 1) = some Actual ∧ Actual ≠ Expected) ∧
        CkCheckArgument Vm ((i : Int) + 1) Expected = some (false, Vm1) := by
  unfold CkCheckArguments
  rw [CkCheckArguments.loop_eq_false]
  simp only [Nat.zero_add]
  constructor
  · rintro ⟨i, e, hi, he, hb, hf⟩
    exact ⟨i, e, hi, he, hb, CkCheckArgument_eq_false hf, hf⟩
  · rintro ⟨i, e, hi, he, hb, -, hf⟩
    exact ⟨i, e, hi, he, hb, hf⟩

/-- C2 at `exampleCallVm`: expected `[Integer, String, List]` against the
actual `[String, ...]` fails at position 1 and the diagnostic names argument 1. -/
theorem CkCheckArguments_false_iff_witness :
    ∃ (i : Nat) (Expected : Nat), i < 3 ∧
      [CkTypeInteger, CkTypeString, CkTypeList][i]? = some Expected ∧
      (∀ j : Nat, j < i → CkGetType exampleCallVm ((j : Int) + 1)
        = [CkTypeInteger, CkTypeString, CkTypeList][j]?) ∧
      (∃ Actual, CkGetType exampleCallVm ((i : Int) + 1) = some Actual ∧ Actual ≠ Expected) ∧
      CkCheckArgument exampleCallVm ((i : Int) + 1) Expected
        = some (false,
            exampleCallVmWithError "foo expects integer for argument 1, got string") :=
  (CkCheckArguments_false_iff exampleCallVm
    (exampleCallVmWithError "foo expects integer for argument 1, got string") 3
    [CkTypeInteger, CkTypeString, CkTypeList]).mp (by decide)

/-- C3: in a VM with an active call frame whose stack holds the positions
`1..Count`, for `Count` expected tags, all below the tag count,
`CkCheckArguments` returns, and returns `TRUE` if and only if at every position
`i` in `1..Count` the tag of the stack value is the `i`-th expected tag. -/
theorem CkCheckArguments_true_iff (Vm : CK_VM) (Fiber : CK_FIBER) (Count : Nat)
    (ArgumentList : List Nat)
    (hFiber : Vm.Fiber = some Fiber) (hFrame : Fiber.Frames.length ≠ 0)
    (hLength : ArgumentList.length = Count)
    (hTags : ∀ t ∈ ArgumentList, t < CkTypeCount)
    (hSlots : Count < Fiber.Stack.length) :
    ∃ Result Vm1, CkCheckArguments Vm Count ArgumentList = some (Result, Vm1) ∧
      (Result = true ↔
        ∀ i : Nat, 1 ≤ i → i ≤ Count → CkGetType Vm (i : Int) = ArgumentList[i - 1]?) := by
  obtain ⟨Result, Vm1, hres⟩ :=
    CkCheckArguments.loop_returns Vm Fiber hFiber hFrame Count 0 ArgumentList hLength hTags
      (by omega)
  refine ⟨Result, Vm1, hres, ?_⟩
  have hall : (∀ j, j < Count → CkGetType Vm (((0 + j : Nat) : Int) + 1) = ArgumentList[j]?) ↔
      ∀ i : Nat, 1 ≤ i → i ≤ Count → CkGetType Vm (i : Int) = ArgumentList[i - 1]? := by
    constructor
    · intro h i h1 h2
      have := h (i - 1) (by omega)
      have hcast : (((0 + (i - 1) : Nat) : Int) + 1) = (i : Int) := by omega
      rwa [hcast] at this
    · intro h j hj
      have := h (j + 1) (by omega) (by omega)
      simpa using this
  cases Result with
  | true =>
    have := (CkCheckArguments.loop_eq_true Vm Vm1 Count 0 ArgumentList).mp hres
    simp only [true_iff]
    exact hall.mp this.2.2
  | false =>
    simp only [Bool.false_eq_true, false_iff]
    intro h
    have htrue := (CkCheckArguments.loop_eq_true Vm Vm Count 0 ArgumentList).mpr
      ⟨by omega, rfl, hall.mpr h⟩
    rw [htrue] at hres
    simp at hres

/-- C3 at `exampleCallVm`: `[String, Integer, List]` matches the three
arguments, and `Count = 0` is covered by the same statement. -/
theorem CkCheckArguments_true_iff_witness :
    exampleCallVm.Fiber = some exampleCallFiber ∧ exampleCallFiber.Frames.length ≠ 0 ∧
      [CkTypeString, CkTypeInteger, CkTypeList].length = 3 ∧
      (∀ t ∈ [CkTypeString, CkTypeInteger, CkTypeList], t < CkTypeCount) ∧
      3 < exampleCallFiber.Stack.length ∧
      ∃ Result Vm1,
        CkCheckArguments exampleCallVm 3 [CkTypeString, CkTypeInteger, CkTypeList]
          = some (Result, Vm1) ∧
        (Result = true ↔
          ∀ i : Nat, 1 ≤ i → i ≤ 3 →
            CkGetType exampleCallVm (i : Int)
              = [CkTypeString, CkTypeInteger, CkTypeList][i - 1]?) :=
  ⟨rfl, by decide, rfl, by decide, by decide,
    CkCheckArguments_true_iff exampleCallVm exampleCallFiber 3
      [CkTypeString, CkTypeInteger, CkTypeList] rfl (by decide) rfl (by decide) (by decide)⟩

/-- C4: on a mismatch (the value at the index has the tag `Actual`, different
from `Expected`), in a call whose stack has at most `2 ^ 31` slots,
`CkCheckArgument` returns `FALSE` and stores as the Error Value of the fiber
exactly `"<fn> expects <E> for argument <n>, got <A>"`: `<fn>` is the name of
the function of the closure of the top call frame, `<n>` the index in decimal,
`<E>` and `<A>` the entries of the table `INVALID, null, integer, string, dict,
list, function, object, data` at the expected and the actual tag. Nothing else
of the VM changes. -/
theorem CkCheckArgument_mismatch_error (Vm : CK_VM) (Fiber : CK_FIBER) (Frame : CK_CALL_FRAME)
    (StackIndex : Int) (Expected Actual : Nat) (ExpectedName ActualName : String)
    (hFiber : Vm.Fiber = some Fiber) (hFrame : Fiber.Frames.getLast? = some Frame)
    (hSize : Fiber.Stack.length ≤ 2 ^ 31)
    (hActual : CkGetType Vm StackIndex = some Actual) (hMismatch : Actual ≠ Expected)
    (hExpectedName :
      ["INVALID", "null", "integer", "string", "dict", "list", "function", "object",
        "data"][Expected]? = some ExpectedName)
    (hActualName :
      ["INVALID", "null", "integer", "string", "dict", "list", "function", "object",
        "data"][Actual]? = some ActualName) :
    CkCheckArgument Vm StackIndex Expected
      = some (false,
          { Vm with
            Fiber := some
              { Fiber with
                Error := CkValue.string
                  (Frame.Closure.FunctionName ++ " expects " ++ ExpectedName
                    ++ " for argument " ++ toString StackIndex
                    ++ ", got " ++ ActualName) } }) := by
  have hbound := CkGetType_index_bound hFiber hActual
  have hcast : castINT StackIndex = StackIndex := by
    apply castINT_of_range
    · have : -(2 : Int) ^ 31 ≤ -(Fiber.Stack.length : Int) := by
        have h : (Fiber.Stack.length : Int) ≤ 2 ^ 31 := by exact_mod_cast hSize
        omega
      omega
    · have h : (Fiber.Stack.length : Int) ≤ 2 ^ 31 := by exact_mod_cast hSize
      omega
  have h := CkCheckArgument_of_mismatch hFiber hFrame hActual hMismatch hExpectedName hActualName
  rw [hcast] at h
  exact h

/-- C4 at `exampleCallVm`: the last argument (index `-1`) is a list where a
dict is expected. -/
theorem CkCheckArgument_mismatch_error_witness :
    CkCheckArgument exampleCallVm (-1) CkTypeDict
      = some (false, exampleCallVmWithError "foo expects dict for argument -1, got list") :=
  CkCheckArgument_mismatch_error exampleCallVm exampleCallFiber
    { Closure := { FunctionName := "foo" } } (-1) CkTypeDict CkTypeList "dict" "list"
    rfl (by decide) (by decide) (by decide) (by decide) (by decide) (by decide)


/-! ## Facts about the base API -/

/-- A non-negative index designates a module exactly when its slot holds an
object whose heap object is a module. -/
theorem CkpGetModule_eq_some_iff (Vm : CK_VM) (Fiber : CK_FIBER) (Slot Ref : Nat)
    (Variables : List (String × CkValue)) :
    CkpGetModule Vm Fiber (Slot : Int) = some (Ref, Variables) ↔
      Fiber.Stack[Slot]? = some (CkValue.object Ref) ∧
        Vm.Heap[Ref]? = some (CkObject.module Variables) := by
  unfold CkpGetModule CkpGetStackIndex
  have h0 : (0 : Int) ≤ (Slot : Int) := Int.ofNat_nonneg _
  simp only [h0, if_true, Nat.cast_lt, Int.toNat_ofNat]
  by_cases hlt : Slot < Fiber.Stack.length
  · simp only [hlt, if_true]
    constructor
    · intro h
      split at h
      · rename_i Ref1 hs
        split at h
        · rename_i Vars1 hh
          simp only [Option.some.injEq, Prod.mk.injEq] at h
          obtain ⟨rfl, rfl⟩ := h
          exact ⟨hs, hh⟩
        · simp at h
      · simp at h
    · rintro ⟨hs, hh⟩
      simp [hs, hh]
  · simp only [hlt, if_false]
    constructor
    · intro h
      simp at h
    · rintro ⟨hs, -⟩
      have := (List.getElem?_eq_some_iff.mp hs).1
      exact absurd this hlt


/-- The routine `CkSetVariable` with a non-negative module index, right after a push: the
pushed value is bound in the module and the stack is as before the push. -/
theorem CkSetVariable_after_push (Heap : List CkObject) (Fiber : CK_FIBER) (Stack : List CkValue)
    (Value : CkValue) (Slot Ref : Nat) (Variables : List (String × CkValue)) (Name : String)
    (hStack : Fiber.Stack = Stack ++ [Value])
    (hSlot : Stack[Slot]? = some (CkValue.object Ref))
    (hHeap : Heap[Ref]? = some (CkObject.module Variables)) :
    CkSetVariable { Fiber := some Fiber, Heap := Heap } (Slot : Int) Name
      = some { Fiber := some { Fiber with Stack := Stack },
               Heap := Heap.set Ref (CkObject.module ((Name, Value) :: Variables)) } := by
  have hlt : Slot < Stack.length := (List.getElem?_eq_some_iff.mp hSlot).1
  have hSlot1 : Fiber.Stack[Slot]? = some (CkValue.object Ref) := by
    rw [hStack, List.getElem?_append_left hlt, hSlot]
  have hmod : CkpGetModule { Fiber := some Fiber, Heap := Heap } Fiber (Slot : Int)
      = some (Ref, Variables) :=
    (CkpGetModule_eq_some_iff _ _ _ _ _).mpr ⟨hSlot1, hHeap⟩
  have hlast : Fiber.Stack.getLast? = some Value := by
    rw [hStack]
    simp
  have hdrop : Fiber.Stack.dropLast = Stack := by
    rw [hStack, List.dropLast_concat]
  simp only [CkSetVariable, hmod, hlast, hdrop]

/-- The routine `CkCall` with no argument, the callable on top of the stack. -/
theorem CkCall_zero (Invoke : CK_INVOKE) (Vm : CK_VM) (Fiber : CK_FIBER) (Stack : List CkValue)
    (Callable : CkValue) (hFiber : Vm.Fiber = some Fiber)
    (hStack : Fiber.Stack = Stack ++ [Callable]) :
    CkCall Invoke Vm 0
      = match Invoke Vm Callable [] with
        | CK_CALL_OUTCOME.returned Result =>
          some (true, { Vm with Fiber := some { Fiber with Stack := Stack ++ [Result] } })
        | CK_CALL_OUTCOME.failed Error Left =>
          some (false,
            { Vm with Fiber := some { Fiber with Stack := Stack ++ [Left], Error := Error } }) := by
  have hlen : Fiber.Stack.length = Stack.length + 1 := by
    rw [hStack]
    simp
  have hget : Fiber.Stack[Stack.length]? = some Callable := by
    rw [hStack]
    simp
  have hdrop : List.drop (Stack.length + 1) Fiber.Stack = [] := by
    rw [hStack]
    simp
  have htake : List.take Stack.length Fiber.Stack = Stack := by
    rw [hStack]
    simp
  have hnot : ¬ (Stack.length + 1 < 1) := by omega
  simp only [CkCall, hFiber, hlen, Nat.zero_add, Nat.add_sub_cancel, hnot, if_false,
    hget, hdrop, htake]


/-- The `switch` of `CkDeclareVariables` leaves on top of the stack the value
of `CkDeclareVariables.binding`, with its Error Value and its new heap objects. -/
theorem CkDeclareVariables.push_eq (Invoke : CK_INVOKE) (Vm : CK_VM) (Fiber : CK_FIBER)
    (Slot Ref : Nat) (Variables : List (String × CkValue)) (Name : String)
    (Variable : CK_VARIABLE_DESCRIPTION)
    (hFiber : Vm.Fiber = some Fiber)
    (hModule : CkpGetModule Vm Fiber (Slot : Int) = some (Ref, Variables)) :
    CkDeclareVariables.push Invoke Vm (Slot : Int) Name Variable
      = (CkDeclareVariables.binding Invoke Vm Fiber Ref Variables Name Variable).map
          fun b => { Fiber := some { Fiber with Stack := Fiber.Stack ++ [b.1], Error := b.2.1 },
                     Heap := Vm.Heap ++ b.2.2 } := by
  unfold CkDeclareVariables.push CkDeclareVariables.binding
  split
  · rename_i h
    simp [h, CkPushNull, CkpPush, hFiber]
  · rename_i h
    simp [h, CkPushInteger, CkpPush, hFiber]
  · rename_i h
    have hle : ∀ Text : String, strlen Text ≤ Text.length := fun Text =>
      (List.takeWhile_prefix _).length_le
    cases hv : Variable.Value with
    | cstring Text => simp [h, CkPushString, CkpPush, hFiber, hle Text]
    | address a => simp [h]
  · rename_i h
    simp [h, CkPushDict, CkpPush, hFiber]
  · rename_i h
    simp [h, CkPushList, CkpPush, hFiber]
  · rename_i h
    simp [h, CkPushFunction, CkpPush, hFiber, hModule]
  · rename_i h
    cases hv : Variable.Value with
    | cstring Text =>
      simp only [h, CkGetVariable, hFiber, hModule]
      cases hl : Variables.lookup Text with
      | none => simp
      | some Callable =>
        simp only [CkpPush, hFiber]
        rw [CkCall_zero Invoke _ { Fiber with Stack := Fiber.Stack ++ [Callable] } Fiber.Stack
          Callable rfl rfl]
        simp only [CkDeclareVariables.callVm]
        generalize Invoke _ Callable [] = outcome
        cases outcome with
        | returned Result => simp
        | failed Error Left => simp [CkStackPop, CkPushNull, CkpPush]
    | address a => simp [h]
  · rename_i h
    simp [h, CkPushData, CkpPush, hFiber]
  · rename_i h1 h2 h3 h4 h5 h6 h7 h8
    rw [if_neg h1, if_neg h2, if_neg h3, if_neg h4, if_neg h5, if_neg h6, if_neg h7, if_neg h8]
    rfl

/-- One iteration of the loop of `CkDeclareVariables`: the value of
`CkDeclareVariables.binding` is bound under the name in the target module, the
stack is as before the iteration. -/
theorem CkDeclareVariables.body_eq (Invoke : CK_INVOKE) (Vm : CK_VM) (Fiber : CK_FIBER)
    (Slot Ref : Nat) (Variables : List (String × CkValue)) (Name : String)
    (Variable : CK_VARIABLE_DESCRIPTION)
    (hFiber : Vm.Fiber = some Fiber)
    (hModule : CkpGetModule Vm Fiber (Slot : Int) = some (Ref, Variables)) :
    CkDeclareVariables.body Invoke (Slot : Int) Vm Name Variable
      = (CkDeclareVariables.binding Invoke Vm Fiber Ref Variables Name Variable).map
          fun b => { Fiber := some { Fiber with Error := b.2.1 },
                     Heap := (Vm.Heap ++ b.2.2).set Ref
                       (CkObject.module ((Name, b.1) :: Variables)) } := by
  obtain ⟨hSlot, hHeap⟩ := (CkpGetModule_eq_some_iff _ _ _ _ _).mp hModule
  have hRef : Ref < Vm.Heap.length := (List.getElem?_eq_some_iff.mp hHeap).1
  unfold CkDeclareVariables.body
  rw [CkDeclareVariables.push_eq Invoke Vm Fiber Slot Ref Variables Name Variable hFiber hModule]
  cases CkDeclareVariables.binding Invoke Vm Fiber Ref Variables Name Variable with
  | none => rfl
  | some b =>
    simp only [Option.map_some']
    rw [CkSetVariable_after_push (Vm.Heap ++ b.2.2)
      { Fiber with Stack := Fiber.Stack ++ [b.1], Error := b.2.1 } Fiber.Stack b.1 Slot Ref
      Variables Name rfl hSlot (by rw [List.getElem?_append_left hRef, hHeap])]

/-- After an iteration the module index designates the same heap object, now
with the new binding in front. -/
theorem CkpGetModule_after_body (Vm : CK_VM) (Fiber : CK_FIBER) (Slot Ref : Nat)
    (Variables : List (String × CkValue)) (Name : String) (Value Error : CkValue)
    (Created : List CkObject)
    (hModule : CkpGetModule Vm Fiber (Slot : Int) = some (Ref, Variables)) :
    CkpGetModule
        { Fiber := some { Fiber with Error := Error },
          Heap := (Vm.Heap ++ Created).set Ref (CkObject.module ((Name, Value) :: Variables)) }
        { Fiber with Error := Error } (Slot : Int)
      = some (Ref, (Name, Value) :: Variables) := by
  obtain ⟨hSlot, hHeap⟩ := (CkpGetModule_eq_some_iff _ _ _ _ _).mp hModule
  have hRef : Ref < Vm.Heap.length := (List.getElem?_eq_some_iff.mp hHeap).1
  refine (CkpGetModule_eq_some_iff _ _ _ _ _).mpr ⟨hSlot, ?_⟩
  have hlt : Ref < (Vm.Heap ++ Created).length := by
    rw [List.length_append]
    omega
  rw [List.getElem?_set_self hlt]

/-- A Function descriptor is bound to a function registered in the target
module. -/
theorem CkDeclareVariables.binding_function {Invoke : CK_INVOKE} {Vm : CK_VM} {Fiber : CK_FIBER}
    {Ref : Nat} {Variables : List (String × CkValue)} {Name : String}
    {Variable : CK_VARIABLE_DESCRIPTION} {b : CkValue × CkValue × List CkObject}
    (h : CkDeclareVariables.binding Invoke Vm Fiber Ref Variables Name Variable = some b)
    (hType : Variable.ApiType = CkTypeFunction) :
    b.1 = CkValue.function Variable.Value Name Variable.Integer Ref := by
  unfold CkDeclareVariables.binding at h
  rw [hType] at h
  have h2 : some (CkValue.function Variable.Value Name Variable.Integer Ref, Fiber.Error,
      ([] : List CkObject)) = some b := h
  simp only [Option.some.injEq] at h2
  rw [← h2]

/-- The Error Value after a descriptor is the one before it, or the one a
failed call set. -/
theorem CkDeclareVariables.binding_error {Invoke : CK_INVOKE} {Vm : CK_VM} {Fiber : CK_FIBER}
    {Ref : Nat} {Variables : List (String × CkValue)} {Name : String}
    {Variable : CK_VARIABLE_DESCRIPTION} {b : CkValue × CkValue × List CkObject}
    (h : CkDeclareVariables.binding Invoke Vm Fiber Ref Variables Name Variable = some b) :
    b.2.1 = Fiber.Error ∨
      ∃ VmC Callable Left, Invoke VmC Callable [] = CK_CALL_OUTCOME.failed b.2.1 Left := by
  unfold CkDeclareVariables.binding at h
  split_ifs at h
  · left; simp at h; rw [← h]
  · left; simp at h; rw [← h]
  · split at h
    · left; simp at h; rw [← h]
    · simp at h
  · left; simp at h; rw [← h]
  · left; simp at h; rw [← h]
  · left; simp at h; rw [← h]
  · split at h
    · split at h
      · simp at h
      · split at h
        · left; simp at h; rw [← h]
        · rename_i Callable _ Error Left hInvoke
          right
          simp at h
          rw [← h]
          exact ⟨_, _, _, hInvoke⟩
    · simp at h
  · left; simp at h; rw [← h]

/-- Only an Object descriptor can change the Error Value. -/
theorem CkDeclareVariables.binding_error_of_not_object {Invoke : CK_INVOKE} {Vm : CK_VM}
    {Fiber : CK_FIBER} {Ref : Nat} {Variables : List (String × CkValue)} {Name : String}
    {Variable : CK_VARIABLE_DESCRIPTION} {b : CkValue × CkValue × List CkObject}
    (h : CkDeclareVariables.binding Invoke Vm Fiber Ref Variables Name Variable = some b)
    (hType : Variable.ApiType ≠ CkTypeObject) :
    b.2.1 = Fiber.Error := by
  unfold CkDeclareVariables.binding at h
  split_ifs at h
  · simp at h; rw [← h]
  · simp at h; rw [← h]
  · split at h
    · simp at h; rw [← h]
    · simp at h
  · simp at h; rw [← h]
  · simp at h; rw [← h]
  · simp at h; rw [← h]
  · simp at h; rw [← h]

theorem CkDeclareVariables.loop_cons_null (Invoke : CK_INVOKE) (ModuleIndex : Int) (Vm : CK_VM)
    (Variable : CK_VARIABLE_DESCRIPTION) (Rest : List CK_VARIABLE_DESCRIPTION)
    (hName : Variable.Name = none) :
    CkDeclareVariables.loop Invoke ModuleIndex Vm (Variable :: Rest) = some Vm := by
  simp [CkDeclareVariables.loop, hName]

theorem CkDeclareVariables.loop_cons_named (Invoke : CK_INVOKE) (ModuleIndex : Int) (Vm : CK_VM)
    (Variable : CK_VARIABLE_DESCRIPTION) (Rest : List CK_VARIABLE_DESCRIPTION) (Name : String)
    (hName : Variable.Name = some Name) :
    CkDeclareVariables.loop Invoke ModuleIndex Vm (Variable :: Rest)
      = (CkDeclareVariables.body Invoke ModuleIndex Vm Name Variable).bind
          fun Vm1 => CkDeclareVariables.loop Invoke ModuleIndex Vm1 Rest := by
  simp only [CkDeclareVariables.loop, hName]
  cases CkDeclareVariables.body Invoke ModuleIndex Vm Name Variable <;> rfl

/-- What a completed run of the loop of `CkDeclareVariables` has done, for a
non-negative module index that designates the module `Ref`: the fiber is the
one at entry up to its Error Value (so the stack is the one at entry); the slot
still designates `Ref`, whose variables are those at entry preceded by one
binding per processed descriptor, the latest first; every other heap object of
the entry heap is as it was; and the Error Value is the one at entry or one set
by a failed call. -/
theorem CkDeclareVariables.loop_spec (Invoke : CK_INVOKE) (Slot Ref : Nat) :
    ∀ (Table : List CK_VARIABLE_DESCRIPTION) (Vm Vm1 : CK_VM) (Fiber : CK_FIBER)
      (Variables : List (String × CkValue)),
      Vm.Fiber = some Fiber →
      CkpGetModule Vm Fiber (Slot : Int) = some (Ref, Variables) →
      CkDeclareVariables.loop Invoke (Slot : Int) Vm Table = some Vm1 →
      ∃ (Bindings : List (String × CkValue)) (Error : CkValue),
        Vm1.Fiber = some { Fiber with Error := Error } ∧
        CkpGetModule Vm1 { Fiber with Error := Error } (Slot : Int)
          = some (Ref, Bindings.reverse ++ Variables) ∧
        List.Forall₂ (CkDeclareVariables.bindingOf Ref)
          (CkDeclareVariables.processed Table) Bindings ∧
        Vm.Heap.length ≤ Vm1.Heap.length ∧
        (∀ k, k < Vm.Heap.length → k ≠ Ref → Vm1.Heap[k]? = Vm.Heap[k]?) ∧
        (Error = Fiber.Error ∨
          ∃ VmC Callable Left, Invoke VmC Callable [] = CK_CALL_OUTCOME.failed Error Left) ∧
        ((∀ d ∈ CkDeclareVariables.processed Table, d.ApiType ≠ CkTypeObject) →
          Error = Fiber.Error) := by
  intro Table
  induction Table with
  | nil =>
    intro Vm Vm1 Fiber Variables _ _ h
    simp [CkDeclareVariables.loop] at h
  | cons d rest ih =>
    intro Vm Vm1 Fiber Variables hFiber hModule h
    cases hName : d.Name with
    | none =>
      rw [CkDeclareVariables.loop_cons_null Invoke _ Vm d rest hName] at h
      simp only [Option.some.injEq] at h
      subst h
      refine ⟨[], Fiber.Error, hFiber, hModule, ?_, le_refl _, fun _ _ _ => rfl, Or.inl rfl,
        fun _ => rfl⟩
      simp [CkDeclareVariables.processed, hName]
    | some Name =>
      rw [CkDeclareVariables.loop_cons_named Invoke _ Vm d rest Name hName,
        CkDeclareVariables.body_eq Invoke Vm Fiber Slot Ref Variables Name d hFiber hModule] at h
      cases hb : CkDeclareVariables.binding Invoke Vm Fiber Ref Variables Name d with
      | none => simp [hb] at h
      | some b =>
        simp only [hb, Option.map_some', Option.some_bind] at h
        obtain ⟨hSlot, hHeap⟩ := (CkpGetModule_eq_some_iff _ _ _ _ _).mp hModule
        have hRef : Ref < Vm.Heap.length := (List.getElem?_eq_some_iff.mp hHeap).1
        obtain ⟨bs, e, hF1, hM1, hrel, hlen, hother, herr, hsame⟩ :=
          ih _ Vm1 { Fiber with Error := b.2.1 } ((Name, b.1) :: Variables) rfl
            (CkpGetModule_after_body Vm Fiber Slot Ref Variables Name b.1 b.2.1 b.2.2 hModule) h
        have hproc : CkDeclareVariables.processed (d :: rest)
            = d :: CkDeclareVariables.processed rest := by
          simp [CkDeclareVariables.processed, List.takeWhile_cons, hName]
        refine ⟨(Name, b.1) :: bs, e, hF1, ?_, ?_, ?_, ?_, ?_, ?_⟩
        · rw [hM1]
          simp
        · rw [hproc]
          exact List.Forall₂.cons
            ⟨hName, fun hType => CkDeclareVariables.binding_function hb hType⟩ hrel
        · simp only [List.length_set, List.length_append] at hlen
          omega
        · intro k hk hne
          have hk1 : k < ((Vm.Heap ++ b.2.2).set Ref
              (CkObject.module ((Name, b.1) :: Variables))).length := by
            simp only [List.length_set, List.length_append]
            omega
          rw [hother k hk1 hne, List.getElem?_set_ne (Ne.symm hne),
            List.getElem?_append_left hk]
        · rcases herr with herr | herr
          · rcases CkDeclareVariables.binding_error hb with hb1 | hb1
            · left
              rw [herr]
              exact hb1
            · right
              rw [herr]
              exact hb1
          · right
            exact herr
        · intro hNoObject
          rw [hproc] at hNoObject
          rw [hsame (fun d hd => hNoObject d (List.mem_cons_of_mem _ hd))]
          exact CkDeclareVariables.binding_error_of_not_object hb
            (hNoObject d (List.mem_cons_self _ _))


/-! ## Declaring variables -/

/-- The module index is resolved once, at entry: `CkDeclareVariables` is its
loop run with the absolute slot. -/
theorem CkDeclareVariables_eq_loop (Invoke : CK_INVOKE) (Vm : CK_VM) (Fiber : CK_FIBER)
    (ModuleIndex : Int) (Slot : Nat) (Table : List CK_VARIABLE_DESCRIPTION)
    (hFiber : Vm.Fiber = some Fiber)
    (hIndex : (ModuleIndex < 0 ∧ ModuleIndex + (Fiber.Stack.length : Int) = (Slot : Int)) ∨
      ModuleIndex = (Slot : Int)) :
    CkDeclareVariables Invoke Vm ModuleIndex Table
      = CkDeclareVariables.loop Invoke (Slot : Int) Vm Table := by
  have h1 : (0 : Int) ≤ (Slot : Int) := Int.ofNat_nonneg _
  rcases hIndex with ⟨hNeg, hAbs⟩ | hEq
  · simp only [CkDeclareVariables, hNeg, if_true, CkGetStackSize, hFiber, Option.map_some',
      hAbs, h1]
  · have h2 : ¬ ((Slot : Int) < 0) := by omega
    simp only [CkDeclareVariables, hEq, h2, if_false]

/-- Once the loop has gone through the descriptors `Pre`, it goes on with what
follows them from the VM it has reached. -/
theorem CkDeclareVariables.loop_prefix (Invoke : CK_INVOKE) (ModuleIndex : Int)
    (Term : CK_VARIABLE_DESCRIPTION) (Tail : List CK_VARIABLE_DESCRIPTION)
    (hTerm : Term.Name = none) :
    ∀ (Pre : List CK_VARIABLE_DESCRIPTION) (Vm0 Vm : CK_VM),
      (∀ d ∈ Pre, d.Name ≠ none) →
      CkDeclareVariables.loop Invoke ModuleIndex Vm0 (Pre ++ [Term]) = some Vm →
      CkDeclareVariables.loop Invoke ModuleIndex Vm0 (Pre ++ Tail)
        = CkDeclareVariables.loop Invoke ModuleIndex Vm Tail := by
  intro Pre
  induction Pre with
  | nil =>
    intro Vm0 Vm _ hReach
    simp only [List.nil_append, CkDeclareVariables.loop_cons_null Invoke _ Vm0 Term [] hTerm,
      Option.some.injEq] at hReach
    subst hReach
    rfl
  | cons d rest ih =>
    intro Vm0 Vm hPre hReach
    cases hName : d.Name with
    | none => exact absurd hName (hPre d (List.mem_cons_self _ _))
    | some Name =>
      simp only [List.cons_append] at hReach ⊢
      rw [CkDeclareVariables.loop_cons_named Invoke _ Vm0 d _ Name hName] at hReach ⊢
      cases hBody : CkDeclareVariables.body Invoke ModuleIndex Vm0 Name d with
      | none => simp [hBody] at hReach
      | some Vm1 =>
        simp only [hBody, Option.some_bind] at hReach ⊢
        exact ih Vm1 Vm (fun d hd => hPre d (List.mem_cons_of_mem _ hd)) hReach

/-- The variable bound by an iteration, read back. -/
theorem moduleVariable_after_body (Vm : CK_VM) (Fiber : CK_FIBER) (Slot Ref : Nat)
    (Variables : List (String × CkValue)) (Name : String) (Value Error : CkValue)
    (Created : List CkObject)
    (hModule : CkpGetModule Vm Fiber (Slot : Int) = some (Ref, Variables)) :
    moduleVariable
        { Fiber := some { Fiber with Error := Error },
          Heap := (Vm.Heap ++ Created).set Ref (CkObject.module ((Name, Value) :: Variables)) }
        (Slot : Int) Name
      = some Value := by
  simp [moduleVariable, moduleVariables,
    CkpGetModule_after_body Vm Fiber Slot Ref Variables Name Value Error Created hModule]

/-- A name that no later binding carries keeps its value. -/
theorem lookup_reverse_append_of_not_bound (Ref : Nat) (Name : String)
    (Variables : List (String × CkValue)) :
    ∀ (Processed : List CK_VARIABLE_DESCRIPTION) (Bindings : List (String × CkValue)),
      List.Forall₂ (CkDeclareVariables.bindingOf Ref) Processed Bindings →
      (∀ d ∈ Processed, d.Name ≠ some Name) →
      (Bindings.reverse ++ Variables).lookup Name = Variables.lookup Name := by
  intro Processed Bindings hrel
  induction hrel generalizing Variables with
  | nil => intro _; rfl
  | @cons d b ds bs hab _ ih =>
    intro hne
    have hd : b.1 ≠ Name := by
      intro hEq
      apply hne d (List.mem_cons_self _ _)
      rw [hab.1, hEq]
    have hrest := ih (b :: Variables) (fun d hd => hne d (List.mem_cons_of_mem _ hd))
    rw [List.reverse_cons, List.append_assoc, List.singleton_append, hrest]
    obtain ⟨n, v⟩ := b
    have hbeq : (Name == n) = false := by
      simpa [beq_eq_false_iff_ne] using Ne.symm hd
    simp [List.lookup_cons, hbeq]

/-- The descriptor the loop of `CkDeclareVariables` meets after the descriptors
`Pre`, in the VM `Vm` it has reached then: the value of
`CkDeclareVariables.binding` is bound and the loop goes on with the rest of the
table, from the VM `Vm1`. If the run returns, the Error Value is the one of the
binding when no later descriptor is an Object descriptor, and is in any case
that one or one set by a failed call; the name is still bound to the value
when no later descriptor carries it; and what the iteration created in the
heap is untouched. -/
theorem CkDeclareVariables_descriptor (Invoke : CK_INVOKE) (Vm0 Vm : CK_VM)
    (Fiber0 Fiber : CK_FIBER) (ModuleIndex : Int) (Slot Ref : Nat)
    (Variables : List (String × CkValue)) (Name : String)
    (Pre : List CK_VARIABLE_DESCRIPTION) (Term Variable : CK_VARIABLE_DESCRIPTION)
    (Rest : List CK_VARIABLE_DESCRIPTION) (b : CkValue × CkValue × List CkObject)
    (hFiber0 : Vm0.Fiber = some Fiber0)
    (hIndex : (ModuleIndex < 0 ∧ ModuleIndex + (Fiber0.Stack.length : Int) = (Slot : Int)) ∨
      ModuleIndex = (Slot : Int))
    (hPre : ∀ d ∈ Pre, d.Name ≠ none) (hTerm : Term.Name = none)
    (hReach : CkDeclareVariables Invoke Vm0 ModuleIndex (Pre ++ [Term]) = some Vm)
    (hFiber : Vm.Fiber = some Fiber)
    (hModule : CkpGetModule Vm Fiber (Slot : Int) = some (Ref, Variables))
    (hName : Variable.Name = some Name)
    (hb : CkDeclareVariables.binding Invoke Vm Fiber Ref Variables Name Variable = some b) :
    ∃ Vm1,
      Vm1.Heap = (Vm.Heap ++ b.2.2).set Ref (CkObject.module ((Name, b.1) :: Variables)) ∧
      CkDeclareVariables Invoke Vm0 ModuleIndex (Pre ++ Variable :: Rest)
        = CkDeclareVariables.loop Invoke (Slot : Int) Vm1 Rest ∧
      moduleVariable Vm1 (Slot : Int) Name = some b.1 ∧
      errorValue Vm1 = some b.2.1 ∧
      ∀ Vm2, CkDeclareVariables Invoke Vm0 ModuleIndex (Pre ++ Variable :: Rest) = some Vm2 →
        ((∀ d ∈ CkDeclareVariables.processed Rest, d.ApiType ≠ CkTypeObject) →
          errorValue Vm2 = some b.2.1) ∧
        (∃ Error2, errorValue Vm2 = some Error2 ∧
          (Error2 = b.2.1 ∨
            ∃ VmC Callable Left,
              Invoke VmC Callable [] = CK_CALL_OUTCOME.failed Error2 Left)) ∧
        ((∀ d ∈ CkDeclareVariables.processed Rest, d.Name ≠ some Name) →
          moduleVariable Vm2 (Slot : Int) Name = some b.1) ∧
        (∀ k, k < (Vm.Heap ++ b.2.2).length → k ≠ Ref → Vm2.Heap[k]? = Vm1.Heap[k]?) := by
  have hRun : CkDeclareVariables Invoke Vm0 ModuleIndex (Pre ++ Variable :: Rest)
      = CkDeclareVariables.loop Invoke (Slot : Int)
          { Fiber := some { Fiber with Error := b.2.1 },
            Heap := (Vm.Heap ++ b.2.2).set Ref (CkObject.module ((Name, b.1) :: Variables)) }
          Rest := by
    rw [CkDeclareVariables_eq_loop Invoke Vm0 Fiber0 ModuleIndex Slot _ hFiber0 hIndex] at hReach ⊢
    rw [CkDeclareVariables.loop_prefix Invoke _ Term (Variable :: Rest) hTerm Pre Vm0 Vm hPre
        hReach,
      CkDeclareVariables.loop_cons_named Invoke _ Vm Variable Rest Name hName,
      CkDeclareVariables.body_eq Invoke Vm Fiber Slot Ref Variables Name Variable hFiber hModule,
      hb]
    rfl
  refine ⟨_, rfl, hRun, moduleVariable_after_body Vm Fiber Slot Ref Variables Name _ _ _ hModule,
    rfl, ?_⟩
  intro Vm2 hRun2
  rw [hRun] at hRun2
  obtain ⟨Bindings, Error2, hF2, hM2, hrel, _, hother, herr, hsame⟩ :=
    CkDeclareVariables.loop_spec Invoke Slot Ref Rest _ Vm2 { Fiber with Error := b.2.1 }
      ((Name, b.1) :: Variables) rfl
      (CkpGetModule_after_body Vm Fiber Slot Ref Variables Name b.1 b.2.1 b.2.2 hModule)
      hRun2
  have hErr : errorValue Vm2 = some Error2 := by
    simp [errorValue, hF2]
  refine ⟨fun hNoObject => ?_, ⟨Error2, hErr, herr⟩, fun hNames => ?_, fun k hk hne => ?_⟩
  · rw [hErr, hsame hNoObject]
  · simp only [moduleVariable, moduleVariables, hF2, hM2, Option.map_some']
    rw [lookup_reverse_append_of_not_bound Ref Name _ _ Bindings hrel hNames]
    simp
  · have hk1 : k < ((Vm.Heap ++ b.2.2).set Ref
        (CkObject.module ((Name, b.1) :: Variables))).length := by
      rw [List.length_set]
      exact hk
    exact hother k hk1 hne

/-- The binding of an Object descriptor whose constructor is bound. -/
theorem CkDeclareVariables.binding_object (Invoke : CK_INVOKE) (Vm : CK_VM) (Fiber : CK_FIBER)
    (Ref : Nat) (Variables : List (String × CkValue)) (Name Constructor : String)
    (Callable : CkValue) (Variable : CK_VARIABLE_DESCRIPTION)
    (hType : Variable.ApiType = CkTypeObject)
    (hValue : Variable.Value = CK_POINTER.cstring Constructor)
    (hBound : Variables.lookup Constructor = some Callable) :
    CkDeclareVariables.binding Invoke Vm Fiber Ref Variables Name Variable
      = match Invoke (CkDeclareVariables.callVm Vm Fiber Callable) Callable [] with
        | CK_CALL_OUTCOME.returned Result => some (Result, Fiber.Error, [])
        | CK_CALL_OUTCOME.failed Error _ => some (CkValue.null, Error, []) := by
  unfold CkDeclareVariables.binding
  rw [hType, hValue]
  simp only [hBound]
  rfl

/-- C6: an Object descriptor `{Name, Object, Constructor}` that
`CkDeclareVariables` meets after the descriptors `Pre`, in a VM `Vm` where
`Constructor` is bound, in the target module, to `Callable`: the descriptor is
processed, the loop goes on with the rest of the table, and `Name` is bound to
the result of the call of `Callable` with no argument if the call succeeds, to
null if it fails. When `CkDeclareVariables` returns, `Name` is still bound to
that value unless a later processed descriptor carries the same name. -/
theorem CkDeclareVariables_object (Invoke : CK_INVOKE) (Vm0 Vm : CK_VM)
    (Fiber0 Fiber : CK_FIBER) (ModuleIndex : Int) (Slot Ref : Nat)
    (Variables : List (String × CkValue)) (Name Constructor : String) (Callable : CkValue)
    (Pre : List CK_VARIABLE_DESCRIPTION) (Term Variable : CK_VARIABLE_DESCRIPTION)
    (Rest : List CK_VARIABLE_DESCRIPTION)
    (hFiber0 : Vm0.Fiber = some Fiber0)
    (hIndex : (ModuleIndex < 0 ∧ ModuleIndex + (Fiber0.Stack.length : Int) = (Slot : Int)) ∨
      ModuleIndex = (Slot : Int))
    (hPre : ∀ d ∈ Pre, d.Name ≠ none) (hTerm : Term.Name = none)
    (hReach : CkDeclareVariables Invoke Vm0 ModuleIndex (Pre ++ [Term]) = some Vm)
    (hFiber : Vm.Fiber = some Fiber)
    (hModule : CkpGetModule Vm Fiber (Slot : Int) = some (Ref, Variables))
    (hName : Variable.Name = some Name)
    (hType : Variable.ApiType = CkTypeObject)
    (hValue : Variable.Value = CK_POINTER.cstring Constructor)
    (hBound : Variables.lookup Constructor = some Callable) :
    ∃ Vm1 Value,
      CkDeclareVariables Invoke Vm0 ModuleIndex (Pre ++ Variable :: Rest)
        = CkDeclareVariables.loop Invoke (Slot : Int) Vm1 Rest ∧
      moduleVariable Vm1 (Slot : Int) Name = some Value ∧
      (∀ Vm2, CkDeclareVariables Invoke Vm0 ModuleIndex (Pre ++ Variable :: Rest) = some Vm2 →
        (∀ d ∈ CkDeclareVariables.processed Rest, d.Name ≠ some Name) →
          moduleVariable Vm2 (Slot : Int) Name = some Value) ∧
      (∀ Result,
        Invoke (CkDeclareVariables.callVm Vm Fiber Callable) Callable []
            = CK_CALL_OUTCOME.returned Result →
          Value = Result) ∧
      (∀ Error Left,
        Invoke (CkDeclareVariables.callVm Vm Fiber Callable) Callable []
            = CK_CALL_OUTCOME.failed Error Left →
          Value = CkValue.null) := by
  have hb := CkDeclareVariables.binding_object Invoke Vm Fiber Ref Variables Name Constructor
    Callable Variable hType hValue hBound
  cases hOutcome : Invoke (CkDeclareVariables.callVm Vm Fiber Callable) Callable [] with
  | returned Result =>
    rw [hOutcome] at hb
    obtain ⟨Vm1, _, h1, h2, _, h3⟩ :=
      CkDeclareVariables_descriptor Invoke Vm0 Vm Fiber0 Fiber ModuleIndex Slot Ref Variables
        Name Pre Term Variable Rest _ hFiber0 hIndex hPre hTerm hReach hFiber hModule hName hb
    refine ⟨Vm1, Result, h1, h2, fun Vm2 hRun hNames => (h3 Vm2 hRun).2.2.1 hNames, ?_, ?_⟩
    · intro Result1 hEq
      simp only [CK_CALL_OUTCOME.returned.injEq] at hEq
      exact hEq
    · intro Error Left hEq
      simp at hEq
  | failed Error Left =>
    rw [hOutcome] at hb
    obtain ⟨Vm1, _, h1, h2, _, h3⟩ :=
      CkDeclareVariables_descriptor Invoke Vm0 Vm Fiber0 Fiber ModuleIndex Slot Ref Variables
        Name Pre Term Variable Rest _ hFiber0 hIndex hPre hTerm hReach hFiber hModule hName hb
    refine ⟨Vm1, CkValue.null, h1, h2, fun Vm2 hRun hNames => (h3 Vm2 hRun).2.2.1 hNames,
      ?_, fun _ _ _ => rfl⟩
    intro Result hEq
    simp at hEq

/-- C6 on the table `Make, Bad, Obj`: `Make` is registered first and returns 7
when called, so `{Obj, Object, "Make"}` binds `Obj` to 7, in the module the
index `-2` designates. -/
theorem CkDeclareVariables_object_witness :
    ∃ Vm1,
      CkDeclareVariables exampleInvoke exampleModuleVm (-2)
          ([exampleMake, exampleBad] ++ exampleObj :: [exampleEnd])
        = CkDeclareVariables.loop exampleInvoke ((1 : Nat) : Int) Vm1 [exampleEnd] ∧
      moduleVariable Vm1 ((1 : Nat) : Int) "Obj" = some (CkValue.integer 7) := by
  obtain ⟨Vm1, Value, h1, h2, _, h3, _⟩ :=
    CkDeclareVariables_object exampleInvoke exampleModuleVm exampleFunctionsVm
      exampleModuleFiber exampleModuleFiber (-2) 1 0 exampleFunctions "Obj" "Make"
      (CkValue.function (CK_POINTER.address 1) "Make" 0 0)
      [exampleMake, exampleBad] exampleEnd exampleObj [exampleEnd]
      rfl (Or.inl (by decide)) (by decide) rfl (by decide) rfl (by decide) rfl rfl rfl
      (by decide)
  have hValue : Value = CkValue.integer 7 := h3 (CkValue.integer 7) rfl
  subst hValue
  exact ⟨Vm1, h1, h2⟩

/-- The text a String descriptor is bound to is the whole text of the
descriptor when it holds no NUL byte. -/
theorem take_strlen_of_no_nul (Text : String) (h : Char.ofNat 0 ∉ Text.data) :
    String.mk (Text.data.take (strlen Text)) = Text := by
  have hall : Text.data.takeWhile (fun c => decide (c ≠ Char.ofNat 0)) = Text.data := by
    rw [List.takeWhile_eq_self_iff]
    intro c hc
    simp only [ne_eq, decide_not, Bool.not_eq_true', decide_eq_false_iff_not]
    intro hEq
    exact h (hEq ▸ hc)
  unfold strlen
  rw [hall, List.take_length]

/-- C7: a descriptor with a name (empty or not) and the tag Null, Integer,
String, Dict, List or Data that `CkDeclareVariables` meets after the
descriptors `Pre`: the name is bound in the target module to the value the tag
prescribes, and the loop goes on with the rest of the table. The value is:
null; the `Integer` field; a string holding the bytes of the descriptor's text
(all of it when it has no NUL byte), a value of its own that no longer refers
to the descriptor; a dict, respectively a list, whose reference is new (no
object of the heap had it) and whose heap object is empty; the data value of
the `Value` pointer with no finalizer. When `CkDeclareVariables` returns, the
name is still bound to that value (and the new container is as it was created)
unless a later processed descriptor carries the same name. -/
theorem CkDeclareVariables_plain_value (Invoke : CK_INVOKE) (Vm0 Vm : CK_VM)
    (Fiber0 Fiber : CK_FIBER) (ModuleIndex : Int) (Slot Ref : Nat)
    (Variables : List (String × CkValue)) (Name : String)
    (Pre : List CK_VARIABLE_DESCRIPTION) (Term Variable : CK_VARIABLE_DESCRIPTION)
    (Rest : List CK_VARIABLE_DESCRIPTION)
    (hFiber0 : Vm0.Fiber = some Fiber0)
    (hIndex : (ModuleIndex < 0 ∧ ModuleIndex + (Fiber0.Stack.length : Int) = (Slot : Int)) ∨
      ModuleIndex = (Slot : Int))
    (hPre : ∀ d ∈ Pre, d.Name ≠ none) (hTerm : Term.Name = none)
    (hReach : CkDeclareVariables Invoke Vm0 ModuleIndex (Pre ++ [Term]) = some Vm)
    (hFiber : Vm.Fiber = some Fiber)
    (hModule : CkpGetModule Vm Fiber (Slot : Int) = some (Ref, Variables))
    (hName : Variable.Name = some Name)
    (hType : Variable.ApiType = CkTypeNull ∨ Variable.ApiType = CkTypeInteger ∨
      Variable.ApiType = CkTypeString ∨ Variable.ApiType = CkTypeDict ∨
      Variable.ApiType = CkTypeList ∨ Variable.ApiType = CkTypeData)
    (hText : Variable.ApiType = CkTypeString →
      ∃ Text, Variable.Value = CK_POINTER.cstring Text) :
    ∃ Vm1 Value,
      CkDeclareVariables Invoke Vm0 ModuleIndex (Pre ++ Variable :: Rest)
        = CkDeclareVariables.loop Invoke (Slot : Int) Vm1 Rest ∧
      moduleVariable Vm1 (Slot : Int) Name = some Value ∧
      (∀ Vm2, CkDeclareVariables Invoke Vm0 ModuleIndex (Pre ++ Variable :: Rest) = some Vm2 →
        (∀ d ∈ CkDeclareVariables.processed Rest, d.Name ≠ some Name) →
          moduleVariable Vm2 (Slot : Int) Name = some Value ∧
          (Variable.ApiType = CkTypeDict ∨ Variable.ApiType = CkTypeList →
            Vm2.Heap[Vm.Heap.length]? = Vm1.Heap[Vm.Heap.length]?)) ∧
      (Variable.ApiType = CkTypeNull → Value = CkValue.null) ∧
      (Variable.ApiType = CkTypeInteger → Value = CkValue.integer Variable.Integer) ∧
      (∀ Text, Variable.ApiType = CkTypeString → Variable.Value = CK_POINTER.cstring Text →
        Value = CkValue.string (String.mk (Text.data.take (strlen Text))) ∧
        (Char.ofNat 0 ∉ Text.data → Value = CkValue.string Text)) ∧
      (Variable.ApiType = CkTypeDict →
        Value = CkValue.dict Vm.Heap.length ∧ Vm.Heap[Vm.Heap.length]? = none ∧
        Vm1.Heap[Vm.Heap.length]? = some (CkObject.dict [])) ∧
      (Variable.ApiType = CkTypeList →
        Value = CkValue.list Vm.Heap.length ∧ Vm.Heap[Vm.Heap.length]? = none ∧
        Vm1.Heap[Vm.Heap.length]? = some (CkObject.list [])) ∧
      (Variable.ApiType = CkTypeData → Value = CkValue.data Variable.Value none) := by
  obtain ⟨_, hHeap⟩ := (CkpGetModule_eq_some_iff _ _ _ _ _).mp hModule
  have hRef : Ref < Vm.Heap.length := (List.getElem?_eq_some_iff.mp hHeap).1
  have hRefNe : Vm.Heap.length ≠ Ref := by omega
  -- the common part, for a descriptor whose binding is known
  have key : ∀ b : CkValue × CkValue × List CkObject,
      CkDeclareVariables.binding Invoke Vm Fiber Ref Variables Name Variable = some b →
      ∃ Vm1,
        Vm1.Heap = (Vm.Heap ++ b.2.2).set Ref (CkObject.module ((Name, b.1) :: Variables)) ∧
        CkDeclareVariables Invoke Vm0 ModuleIndex (Pre ++ Variable :: Rest)
          = CkDeclareVariables.loop Invoke (Slot : Int) Vm1 Rest ∧
        moduleVariable Vm1 (Slot : Int) Name = some b.1 ∧
        (∀ Vm2,
          CkDeclareVariables Invoke Vm0 ModuleIndex (Pre ++ Variable :: Rest) = some Vm2 →
          (∀ d ∈ CkDeclareVariables.processed Rest, d.Name ≠ some Name) →
            moduleVariable Vm2 (Slot : Int) Name = some b.1 ∧
            (Vm.Heap.length < (Vm.Heap ++ b.2.2).length →
              Vm2.Heap[Vm.Heap.length]? = Vm1.Heap[Vm.Heap.length]?)) := by
    intro b hb
    obtain ⟨Vm1, hH1, h1, h2, _, h3⟩ :=
      CkDeclareVariables_descriptor Invoke Vm0 Vm Fiber0 Fiber ModuleIndex Slot Ref Variables
        Name Pre Term Variable Rest b hFiber0 hIndex hPre hTerm hReach hFiber hModule hName hb
    exact ⟨Vm1, hH1, h1, h2, fun Vm2 hRun hNames =>
      ⟨(h3 Vm2 hRun).2.2.1 hNames, fun hlt => (h3 Vm2 hRun).2.2.2 _ hlt hRefNe⟩⟩
  have hNone : Vm.Heap[Vm.Heap.length]? = none := List.getElem?_eq_none (le_refl _)
  rcases hType with h | h | h | h | h | h
  · obtain ⟨Vm1, _, h1, h2, h3⟩ := key (CkValue.null, Fiber.Error, [])
      (by simp [CkDeclareVariables.binding, h])
    refine ⟨Vm1, CkValue.null, h1, h2, fun Vm2 hr hn => ⟨(h3 Vm2 hr hn).1, ?_⟩,
      fun _ => rfl, ?_, ?_, ?_, ?_, ?_⟩ <;> simp [h]
  · obtain ⟨Vm1, _, h1, h2, h3⟩ := key (CkValue.integer Variable.Integer, Fiber.Error, [])
      (by simp [CkDeclareVariables.binding, h])
    refine ⟨Vm1, CkValue.integer Variable.Integer, h1, h2,
      fun Vm2 hr hn => ⟨(h3 Vm2 hr hn).1, ?_⟩, ?_, fun _ => rfl, ?_, ?_, ?_, ?_⟩ <;> simp [h]
  · obtain ⟨Text, hT⟩ := hText h
    obtain ⟨Vm1, _, h1, h2, h3⟩ :=
      key (CkValue.string (String.mk (Text.data.take (strlen Text))), Fiber.Error, [])
        (by simp [CkDeclareVariables.binding, h, hT])
    refine ⟨Vm1, CkValue.string (String.mk (Text.data.take (strlen Text))), h1, h2,
      fun Vm2 hr hn => ⟨(h3 Vm2 hr hn).1, ?_⟩, ?_, ?_, ?_, ?_, ?_, ?_⟩
    · simp [h]
    · simp [h]
    · simp [h]
    · intro Text1 _ hT1
      rw [hT] at hT1
      simp only [CK_POINTER.cstring.injEq] at hT1
      subst hT1
      exact ⟨rfl, fun hnul => by rw [take_strlen_of_no_nul Text hnul]⟩
    · simp [h]
    · simp [h]
    · simp [h]
  · obtain ⟨Vm1, hH1, h1, h2, h3⟩ :=
      key (CkValue.dict Vm.Heap.length, Fiber.Error, [CkObject.dict []])
        (by simp [CkDeclareVariables.binding, h])
    have hNew : Vm1.Heap[Vm.Heap.length]? = some (CkObject.dict []) := by
      rw [hH1, List.getElem?_set_ne (Ne.symm hRefNe)]
      simp
    refine ⟨Vm1, CkValue.dict Vm.Heap.length, h1, h2,
      fun Vm2 hr hn => ⟨(h3 Vm2 hr hn).1, fun _ => (h3 Vm2 hr hn).2 (by simp)⟩,
      ?_, ?_, ?_, fun _ => ⟨rfl, hNone, hNew⟩, ?_, ?_⟩ <;> simp [h]
  · obtain ⟨Vm1, hH1, h1, h2, h3⟩ :=
      key (CkValue.list Vm.Heap.length, Fiber.Error, [CkObject.list []])
        (by simp [CkDeclareVariables.binding, h])
    have hNew : Vm1.Heap[Vm.Heap.length]? = some (CkObject.list []) := by
      rw [hH1, List.getElem?_set_ne (Ne.symm hRefNe)]
      simp
    refine ⟨Vm1, CkValue.list Vm.Heap.length, h1, h2,
      fun Vm2 hr hn => ⟨(h3 Vm2 hr hn).1, fun _ => (h3 Vm2 hr hn).2 (by simp)⟩,
      ?_, ?_, ?_, ?_, fun _ => ⟨rfl, hNone, hNew⟩, ?_⟩ <;> simp [h]
  · obtain ⟨Vm1, _, h1, h2, h3⟩ := key (CkValue.data Variable.Value none, Fiber.Error, [])
      (by simp [CkDeclareVariables.binding, h])
    refine ⟨Vm1, CkValue.data Variable.Value none, h1, h2,
      fun Vm2 hr hn => ⟨(h3 Vm2 hr hn).1, ?_⟩, ?_, ?_, ?_, ?_, ?_, fun _ => rfl⟩ <;> simp [h]

/-- C7 on the table `Make, Bad, X, S`: `{X, Integer, 42}` binds `X` to 42, and
`X` is 42 when `CkDeclareVariables`, which goes on to bind `S`, returns. -/
theorem CkDeclareVariables_plain_value_witness :
    ∃ Vm1,
      CkDeclareVariables exampleInvoke exampleModuleVm (-2)
          ([exampleMake, exampleBad] ++ exampleX :: [exampleS, exampleEnd])
        = CkDeclareVariables.loop exampleInvoke ((1 : Nat) : Int) Vm1 [exampleS, exampleEnd] ∧
      moduleVariable Vm1 ((1 : Nat) : Int) "X" = some (CkValue.integer 42) ∧
      ∀ Vm2,
        CkDeclareVariables exampleInvoke exampleModuleVm (-2)
            ([exampleMake, exampleBad] ++ exampleX :: [exampleS, exampleEnd]) = some Vm2 →
          moduleVariable Vm2 ((1 : Nat) : Int) "X" = some (CkValue.integer 42) := by
  obtain ⟨Vm1, Value, h1, h2, h3, _, hInt, _⟩ :=
    CkDeclareVariables_plain_value exampleInvoke exampleModuleVm exampleFunctionsVm
      exampleModuleFiber exampleModuleFiber (-2) 1 0 exampleFunctions "X"
      [exampleMake, exampleBad] exampleEnd exampleX [exampleS, exampleEnd]
      rfl (Or.inl (by decide)) (by decide) rfl (by decide) rfl (by decide) rfl
      (Or.inr (Or.inl rfl)) (fun h => absurd h (by decide))
  have hValue : Value = CkValue.integer 42 := hInt rfl
  subst hValue
  exact ⟨Vm1, h1, h2, fun Vm2 hRun => (h3 Vm2 hRun (by decide)).1⟩

/-- Nothing after the first `NULL` name is read by the loop. -/
theorem CkDeclareVariables.loop_truncate (Invoke : CK_INVOKE) (ModuleIndex : Int)
    (Term : CK_VARIABLE_DESCRIPTION) (Post : List CK_VARIABLE_DESCRIPTION)
    (hTerm : Term.Name = none) :
    ∀ (Pre : List CK_VARIABLE_DESCRIPTION) (Vm : CK_VM),
      (∀ d ∈ Pre, d.Name ≠ none) →
      CkDeclareVariables.loop Invoke ModuleIndex Vm (Pre ++ Term :: Post)
        = CkDeclareVariables.loop Invoke ModuleIndex Vm (Pre ++ [Term]) := by
  intro Pre
  induction Pre with
  | nil =>
    intro Vm _
    simp [CkDeclareVariables.loop, hTerm]
  | cons d rest ih =>
    intro Vm hPre
    cases hName : d.Name with
    | none => exact absurd hName (hPre d (List.mem_cons_self _ _))
    | some Name =>
      simp only [List.cons_append]
      rw [CkDeclareVariables.loop_cons_named Invoke _ Vm d _ Name hName,
        CkDeclareVariables.loop_cons_named Invoke _ Vm d _ Name hName]
      cases CkDeclareVariables.body Invoke ModuleIndex Vm Name d with
      | none => rfl
      | some Vm1 =>
        simp only [Option.some_bind]
        exact ih Vm1 (fun d hd => hPre d (List.mem_cons_of_mem _ hd))

/-- The processed descriptors of a table are those before the first `NULL`
name. -/
theorem CkDeclareVariables.processed_append (Term : CK_VARIABLE_DESCRIPTION)
    (Post : List CK_VARIABLE_DESCRIPTION) (hTerm : Term.Name = none) :
    ∀ (Pre : List CK_VARIABLE_DESCRIPTION), (∀ d ∈ Pre, d.Name ≠ none) →
      CkDeclareVariables.processed (Pre ++ Term :: Post) = Pre := by
  intro Pre
  induction Pre with
  | nil =>
    intro _
    simp [CkDeclareVariables.processed, hTerm]
  | cons d rest ih =>
    intro hPre
    have hd : d.Name.isSome = true := by
      cases hName : d.Name with
      | none => exact absurd hName (hPre d (List.mem_cons_self _ _))
      | some Name => rfl
    have := ih (fun d hd => hPre d (List.mem_cons_of_mem _ hd))
    unfold CkDeclareVariables.processed at this ⊢
    simp only [List.cons_append, List.takeWhile_cons, hd, if_true, this]

/-- C8, as stated, fails: a descriptor whose name is the empty string does not
end the table. It is bound, under the empty name, and so is the descriptor
after it. -/
theorem CkDeclareVariables_empty_name_is_bound :
    moduleVariables exampleModuleVm (-2) = some [] ∧
      (CkDeclareVariables exampleInvoke exampleModuleVm (-2)
          [exampleEmptyName, exampleX, exampleEnd]).bind (fun Vm => moduleVariables Vm (-2))
        = some [("X", CkValue.integer 42), ("", CkValue.integer 5)] := by
  decide

/-- C8, amended: `CkDeclareVariables` stops at the first descriptor whose name
is `NULL`, and only there (an empty name is a name). What follows that
descriptor has no effect on the result. When the run returns, for a module
index that designates a module, the variables of the module are those at entry
preceded by exactly one binding per descriptor before the `NULL` name, each
under the name of its descriptor, in table order (the latest first). -/
theorem CkDeclareVariables_stops_at_null (Invoke : CK_INVOKE) (Vm : CK_VM) (ModuleIndex : Int)
    (Pre : List CK_VARIABLE_DESCRIPTION) (Term : CK_VARIABLE_DESCRIPTION)
    (Post : List CK_VARIABLE_DESCRIPTION)
    (hPre : ∀ d ∈ Pre, d.Name ≠ none) (hTerm : Term.Name = none) :
    CkDeclareVariables Invoke Vm ModuleIndex (Pre ++ Term :: Post)
        = CkDeclareVariables Invoke Vm ModuleIndex (Pre ++ [Term]) ∧
      ∀ (Fiber : CK_FIBER) (Slot Ref : Nat) (Variables : List (String × CkValue))
        (Vm1 : CK_VM),
        Vm.Fiber = some Fiber →
        ((ModuleIndex < 0 ∧ ModuleIndex + (Fiber.Stack.length : Int) = (Slot : Int)) ∨
          ModuleIndex = (Slot : Int)) →
        CkpGetModule Vm Fiber (Slot : Int) = some (Ref, Variables) →
        CkDeclareVariables Invoke Vm ModuleIndex (Pre ++ Term :: Post) = some Vm1 →
        ∃ Bindings : List (String × CkValue),
          List.Forall₂ (fun d b => d.Name = some b.1) Pre Bindings ∧
          moduleVariables Vm1 (Slot : Int) = some (Bindings.reverse ++ Variables) := by
  constructor
  · unfold CkDeclareVariables
    simp only [CkDeclareVariables.loop_truncate Invoke _ Term Post hTerm Pre _ hPre]
  · intro Fiber Slot Ref Variables Vm1 hFiber hIndex hModule hRun
    rw [CkDeclareVariables_eq_loop Invoke Vm Fiber ModuleIndex Slot _ hFiber hIndex] at hRun
    obtain ⟨Bindings, Error, hF1, hM1, hrel, _, _, _, _⟩ :=
      CkDeclareVariables.loop_spec Invoke Slot Ref _ Vm Vm1 Fiber Variables hFiber hModule hRun
    rw [CkDeclareVariables.processed_append Term Post hTerm Pre hPre] at hrel
    refine ⟨Bindings, hrel.imp (fun _ _ h => h.1), ?_⟩
    simp [moduleVariables, hF1, hM1]

/-- C8, amended, at `exampleModuleVm`: the descriptor `S` after the `NULL`
name plays no part, and the empty name before it does not end the table. -/
theorem CkDeclareVariables_stops_at_null_witness :
    CkDeclareVariables exampleInvoke exampleModuleVm (-2)
        ([exampleEmptyName, exampleX] ++ exampleEnd :: [exampleS])
      = CkDeclareVariables exampleInvoke exampleModuleVm (-2)
        ([exampleEmptyName, exampleX] ++ [exampleEnd]) :=
  (CkDeclareVariables_stops_at_null exampleInvoke exampleModuleVm (-2)
    [exampleEmptyName, exampleX] exampleEnd [exampleS] (by decide) rfl).1

/-- C9: `CkDeclareVariables` resolves its module index once, at entry: a
negative index `ModuleIndex` with `ModuleIndex + size ≥ 0` becomes the absolute
slot `ModuleIndex + size`, for the stack size at entry, and a non-negative
index is used as it is. The loop then runs with that absolute slot for every
descriptor. When the run returns, the stack is the one at entry, every binding
(one per processed descriptor, a Function descriptor being bound to a function
registered in that module) has been made in the module that the slot
designated at entry, and no other object of the entry heap has changed. -/
theorem CkDeclareVariables_module_index (Invoke : CK_INVOKE) (Vm : CK_VM) (Fiber : CK_FIBER)
    (ModuleIndex : Int) (Slot Ref : Nat) (Variables : List (String × CkValue))
    (Table : List CK_VARIABLE_DESCRIPTION)
    (hFiber : Vm.Fiber = some Fiber)
    (hIndex : (ModuleIndex < 0 ∧ ModuleIndex + (Fiber.Stack.length : Int) = (Slot : Int)) ∨
      ModuleIndex = (Slot : Int))
    (hModule : CkpGetModule Vm Fiber (Slot : Int) = some (Ref, Variables)) :
    CkDeclareVariables Invoke Vm ModuleIndex Table
        = CkDeclareVariables.loop Invoke (Slot : Int) Vm Table ∧
      ∀ Vm1, CkDeclareVariables Invoke Vm ModuleIndex Table = some Vm1 →
        ∃ (Bindings : List (String × CkValue)) (Error : CkValue),
          Vm1.Fiber = some { Fiber with Error := Error } ∧
          Vm1.Heap[Ref]? = some (CkObject.module (Bindings.reverse ++ Variables)) ∧
          List.Forall₂ (CkDeclareVariables.bindingOf Ref)
            (CkDeclareVariables.processed Table) Bindings ∧
          ∀ k, k < Vm.Heap.length → k ≠ Ref → Vm1.Heap[k]? = Vm.Heap[k]? := by
  have hLoop := CkDeclareVariables_eq_loop Invoke Vm Fiber ModuleIndex Slot Table hFiber hIndex
  refine ⟨hLoop, ?_⟩
  intro Vm1 hRun
  rw [hLoop] at hRun
  obtain ⟨Bindings, Error, hF1, hM1, hrel, _, hother, _, _⟩ :=
    CkDeclareVariables.loop_spec Invoke Slot Ref _ Vm Vm1 Fiber Variables hFiber hModule hRun
  exact ⟨Bindings, Error, hF1, ((CkpGetModule_eq_some_iff _ _ _ _ _).mp hM1).2, hrel, hother⟩

/-- C9 at `exampleModuleVm`, whose stack has three slots, the two upper ones
holding a module each: with the index `-2` the run is the loop with the slot 1,
`Make` is a function of the module 0 and `Obj` is bound there too, and the
module 1 of the top slot has no variable. -/
theorem CkDeclareVariables_module_index_witness :
    CkDeclareVariables exampleInvoke exampleModuleVm (-2) [exampleMake, exampleObj, exampleEnd]
        = CkDeclareVariables.loop exampleInvoke ((1 : Nat) : Int) exampleModuleVm
            [exampleMake, exampleObj, exampleEnd] ∧
      CkDeclareVariables exampleInvoke exampleModuleVm (-2) [exampleMake, exampleObj, exampleEnd]
        = some
            { Fiber := some exampleModuleFiber,
              Heap := [CkObject.module
                         [("Obj", CkValue.integer 7),
                          ("Make", CkValue.function (CK_POINTER.address 1) "Make" 0 0)],
                       CkObject.module []] } :=
  ⟨(CkDeclareVariables_module_index exampleInvoke exampleModuleVm exampleModuleFiber (-2) 1 0 []
      [exampleMake, exampleObj, exampleEnd] rfl (Or.inl (by decide)) (by decide)).1,
    by decide⟩

/-! ## Return values -/

/-- Pushing a value and replacing slot 0 with it: slot 0 holds the value and the
rest of the VM is as before the push. -/
theorem CkStackReplace_zero_after_push (Vm : CK_VM) (Fiber : CK_FIBER) (Slot0 : CkValue)
    (Rest : List CkValue) (Value : CkValue)
    (hFiber : Vm.Fiber = some Fiber) (hStack : Fiber.Stack = Slot0 :: Rest) :
    (CkpPush Vm Value).bind (fun Vm1 => CkStackReplace Vm1 0)
      = some { Vm with Fiber := some { Fiber with Stack := Value :: Rest } } := by
  have hlast : (Slot0 :: (Rest ++ [Value])).getLast? = some Value := by
    rw [← List.cons_append, List.getLast?_append]
    simp
  have hdrop : (Value :: (Rest ++ [Value])).dropLast = Value :: Rest := by
    rw [← List.cons_append, List.dropLast_concat]
  simp [CkpPush, hFiber, CkStackReplace, CkpGetStackIndex, hStack, hlast, hdrop]

theorem CkReturnNull_eq_bind (Vm : CK_VM) :
    CkReturnNull Vm = (CkPushNull Vm).bind (fun Vm1 => CkStackReplace Vm1 0) := by
  unfold CkReturnNull
  cases CkPushNull Vm <;> rfl

theorem CkReturnInteger_eq_bind (Vm : CK_VM) (Integer : Int) :
    CkReturnInteger Vm Integer
      = (CkPushInteger Vm Integer).bind (fun Vm1 => CkStackReplace Vm1 0) := by
  unfold CkReturnInteger
  cases CkPushInteger Vm Integer <;> rfl

theorem CkReturnString_eq_bind (Vm : CK_VM) (Buffer : String) (Length : Nat) :
    CkReturnString Vm Buffer Length
      = (CkPushString Vm Buffer Length).bind (fun Vm1 => CkStackReplace Vm1 0) := by
  unfold CkReturnString
  cases CkPushString Vm Buffer Length <;> rfl

/-- C10: in a call whose stack is `Slot0 :: Rest`, `CkReturnNull`,
`CkReturnInteger` and `CkReturnString` are each "push the value, then replace
stack slot 0 with it", and each returns the VM at entry with slot 0 replaced:
by null, by the integer, by a string of the first `Length` bytes of the buffer
(which holds at least `Length` bytes). The stack has the size it had at entry
and every other slot, and the rest of the VM, is unchanged. With `Length = 0`
slot 0 holds the string of length 0, whose tag is String, not Null. -/
theorem CkReturn_replaces_slot_zero (Vm : CK_VM) (Fiber : CK_FIBER) (Slot0 : CkValue)
    (Rest : List CkValue)
    (hFiber : Vm.Fiber = some Fiber) (hStack : Fiber.Stack = Slot0 :: Rest) :
    (CkReturnNull Vm = (CkPushNull Vm).bind (fun Vm1 => CkStackReplace Vm1 0) ∧
      CkReturnNull Vm
        = some { Vm with Fiber := some { Fiber with Stack := CkValue.null :: Rest } }) ∧
    (∀ Integer : Int,
      CkReturnInteger Vm Integer
        = (CkPushInteger Vm Integer).bind (fun Vm1 => CkStackReplace Vm1 0) ∧
      CkReturnInteger Vm Integer
        = some { Vm with
                 Fiber := some { Fiber with Stack := CkValue.integer Integer :: Rest } }) ∧
    (∀ (Buffer : String) (Length : Nat), Length ≤ Buffer.data.length →
      CkReturnString Vm Buffer Length
        = (CkPushString Vm Buffer Length).bind (fun Vm1 => CkStackReplace Vm1 0) ∧
      CkReturnString Vm Buffer Length
        = some { Vm with
                 Fiber := some
                   { Fiber with
                     Stack := CkValue.string (String.mk (Buffer.data.take Length)) :: Rest } }) ∧
    (∀ Buffer : String,
      CkReturnString Vm Buffer 0
        = some { Vm with Fiber := some { Fiber with Stack := CkValue.string "" :: Rest } } ∧
      ("" : String).length = 0 ∧
      (CkValue.string "").apiType = CkTypeString ∧
      CkValue.string "" ≠ CkValue.null) := by
  have hString : ∀ (Buffer : String) (Length : Nat), Length ≤ Buffer.data.length →
      CkReturnString Vm Buffer Length
        = some { Vm with
                 Fiber := some
                   { Fiber with
                     Stack := CkValue.string (String.mk (Buffer.data.take Length)) :: Rest } } := by
    intro Buffer Length hLength
    rw [CkReturnString_eq_bind]
    simp only [CkPushString, hLength, if_true]
    exact CkStackReplace_zero_after_push Vm Fiber Slot0 Rest _ hFiber hStack
  refine ⟨⟨?_, ?_⟩, fun Integer => ⟨?_, ?_⟩, fun Buffer Length hLength => ⟨?_, ?_⟩,
    fun Buffer => ⟨?_, rfl, rfl, ?_⟩⟩
  · exact CkReturnNull_eq_bind Vm
  · rw [CkReturnNull_eq_bind]
    exact CkStackReplace_zero_after_push Vm Fiber Slot0 Rest _ hFiber hStack
  · exact CkReturnInteger_eq_bind Vm Integer
  · rw [CkReturnInteger_eq_bind]
    exact CkStackReplace_zero_after_push Vm Fiber Slot0 Rest _ hFiber hStack
  · exact CkReturnString_eq_bind Vm Buffer Length
  · exact hString Buffer Length hLength
  · have := hString Buffer 0 (Nat.zero_le _)
    simpa using this
  · intro h
    cases h

/-- C10 at `exampleCallVm`: returning the first three bytes of `"hello"`. -/
theorem CkReturn_replaces_slot_zero_witness :
    CkReturnString exampleCallVm "hello" 3
      = some { exampleCallVm with
               Fiber := some
                 { exampleCallFiber with
                   Stack := [CkValue.string "hel", CkValue.string "a", CkValue.integer 3,
                             CkValue.list 0] } } :=
  ((CkReturn_replaces_slot_zero exampleCallVm exampleCallFiber CkValue.null
    [CkValue.string "a", CkValue.integer 3, CkValue.list 0] rfl rfl).2.2.1 "hello" 3
      (by decide)).2


/-! ## Options of the interpreter -/

/-- A call of `getopt_long` at an element `--name` in which `name` holds no
`=`, with the long options of `main`, when the search of the table finds
nothing: the element is consumed and `?` is returned. -/
theorem getopt_long_unknown (argv : List String) (optstring : String) (optind : Nat)
    (Name : List Char) (c : Char)
    (hArgument : (argv[optind]?).map String.data = some ('-' :: '-' :: c :: Name))
    (hPlain : (c :: Name).takeWhile (fun x => x ≠ '=') = c :: Name)
    (hSearch : (getopt_long.search (c :: Name) ChalkLongOptions none false).1 = none) :
    getopt_long argv optstring ChalkLongOptions { optind := optind, nextchar := [] }
      = (('?'.toNat : Int), { optind := optind + 1, nextchar := [] }) := by
  cases hArg : argv[optind]? with
  | none => simp [hArg] at hArgument
  | some Argument =>
    simp only [hArg, Option.map_some', Option.some.injEq] at hArgument
    simp only [getopt_long, hArg, hArgument, hPlain]
    rw [if_neg (by simp)]
    split
    · rfl
    · rename_i Entry Ambiguous Exact hEq
      rw [hEq] at hSearch
      simp at hSearch

/-- A call of `getopt_long` at an element `--name` in which `name` holds no
`=`, with the long options of `main`, when the search of the table finds an
entry, without ambiguity, that takes no argument and has no flag: the element
is consumed and the `val` of the entry is returned. -/
theorem getopt_long_found (argv : List String) (optstring : String) (optind : Nat)
    (Name : List Char) (c : Char) (Entry : option) (Exact : Bool)
    (hArgument : (argv[optind]?).map String.data = some ('-' :: '-' :: c :: Name))
    (hPlain : (c :: Name).takeWhile (fun x => x ≠ '=') = c :: Name)
    (hValue : (c :: Name).contains '=' = false)
    (hSearch : getopt_long.search (c :: Name) ChalkLongOptions none false
      = (some Entry, false, Exact))
    (hNoArgument : Entry.has_arg = no_argument) (hFlag : Entry.flag = none) :
    getopt_long argv optstring ChalkLongOptions { optind := optind, nextchar := [] }
      = (Entry.val, { optind := optind + 1, nextchar := [] }) := by
  cases hArg : argv[optind]? with
  | none => simp [hArg] at hArgument
  | some Argument =>
    simp only [hArg, Option.map_some', Option.some.injEq] at hArgument
    have hne : no_argument ≠ required_argument := by decide
    simp only [getopt_long, hArg, hArgument, hPlain, hSearch, hValue, hNoArgument, hFlag]
    simp [hne]

/-- A turn of the loop of `main` in which `getopt_long` returns `-1`. -/
theorem main.loop_end (Headers : CHALK_HEADERS) (Arguments : List String) (Turns : Nat)
    (Context : CK_APP_CONTEXT) (State State1 : GETOPT) (Output : List String)
    (h : getopt_long Arguments CHALK_OPTIONS_STRING ChalkLongOptions State = (-1, State1)) :
    main.loop Headers Arguments (Turns + 1) Context State Output
      = some (MAIN_OPTIONS.run Context State1.optind, Output) := by
  simp only [main.loop, h]
  simp

/-- A turn of the loop of `main` in which `getopt_long` returns
`CHALK_OPTION_DEBUG_GC`. -/
theorem main.loop_debug_gc (Headers : CHALK_HEADERS) (Arguments : List String) (Turns : Nat)
    (Context : CK_APP_CONTEXT) (State State1 : GETOPT) (Output : List String)
    (h : getopt_long Arguments CHALK_OPTIONS_STRING ChalkLongOptions State
      = (CHALK_OPTION_DEBUG_GC, State1)) :
    main.loop Headers Arguments (Turns + 1) Context State Output
      = main.loop Headers Arguments Turns
          { Context with
            Configuration :=
              { Flags := Context.Configuration.Flags ||| Headers.CK_CONFIGURATION_GC_STRESS } }
          State1 Output := by
  simp only [main.loop, h]
  simp [CHALK_OPTION_DEBUG_GC]

/-- A turn of the loop of `main` in which `getopt_long` returns
`CHALK_OPTION_DEBUG_COMPILER`. -/
theorem main.loop_debug_compiler (Headers : CHALK_HEADERS) (Arguments : List String)
    (Turns : Nat) (Context : CK_APP_CONTEXT) (State State1 : GETOPT) (Output : List String)
    (h : getopt_long Arguments CHALK_OPTIONS_STRING ChalkLongOptions State
      = (CHALK_OPTION_DEBUG_COMPILER, State1)) :
    main.loop Headers Arguments (Turns + 1) Context State Output
      = main.loop Headers Arguments Turns
          { Context with
            Configuration :=
              { Flags :=
                  Context.Configuration.Flags ||| Headers.CK_CONFIGURATION_DEBUG_COMPILER } }
          State1 Output := by
  simp only [main.loop, h]
  simp [CHALK_OPTION_DEBUG_GC, CHALK_OPTION_DEBUG_COMPILER]

/-- The first turn of the loop of `main`, in terms of what `getopt_long`
returns: the turn bound of `main` is never zero. -/
theorem main_first_turn (Headers : CHALK_HEADERS) (Arguments : List String) :
    main Headers true Arguments
      = main.loop Headers Arguments
          ((Arguments.map fun Argument => Argument.data.length + 1).sum + 1)
          { Configuration := { Flags := Headers.InitialFlags }, LineNumber := 1 }
          { optind := 1, nextchar := [] } [] := by
  simp [main, ChalkInitializeContext, main.turns]

/-- C11: the usage text documents `--version` ("Print the application version
information and exit"), but `main` does not recognise it. On every argument
vector whose first argument is `--version`, `getopt_long` finds no such long
option (the table names `verbose`, with the value `v`, where `version`, with
the value `V`, is documented) and `main` leaves through `MainEnd` with the
status 2 and nothing printed. The `case 'V'` that prints the version is reached
by the short option `-V` only, and the long option `--verbose` of the table has
no `case`: it ends in the `assert` of the `default` case. The other documented
options are recognised: `--help` prints the usage text and returns, and
`--debug-gc` and `--debug-compiler` set their flag in the configuration with
which `main` goes on. -/
theorem main_version_rejected (Headers : CHALK_HEADERS) (Program : String) :
    (∀ Rest : List String,
      main Headers true (Program :: "--version" :: Rest) = some (MAIN_OPTIONS.mainEnd 2, [])) ∧
    (∀ Rest : List String,
      main Headers true (Program :: "-V" :: Rest)
        = some (MAIN_OPTIONS.returned 1,
            ["Chalk version " ++ toString Headers.CHALK_VERSION_MAJOR ++ "." ++
              toString Headers.CHALK_VERSION_MINOR ++ "." ++
              toString Headers.CHALK_VERSION_REVISION ++
              ". Copyright 2016 Minoca Corp. All Rights Reserved.\n"])) ∧
    (∀ Rest : List String,
      main Headers true (Program :: "--verbose" :: Rest)
        = some (MAIN_OPTIONS.assertFailed, [])) ∧
    (∀ Rest : List String,
      main Headers true (Program :: "--help" :: Rest)
        = some (MAIN_OPTIONS.returned 2, [CHALK_USAGE])) ∧
    main Headers true [Program, "--debug-gc"]
      = some (MAIN_OPTIONS.run
          { Configuration :=
              { Flags := Headers.InitialFlags ||| Headers.CK_CONFIGURATION_GC_STRESS },
            LineNumber := 1 } 2, []) ∧
    main Headers true [Program, "--debug-compiler"]
      = some (MAIN_OPTIONS.run
          { Configuration :=
              { Flags := Headers.InitialFlags ||| Headers.CK_CONFIGURATION_DEBUG_COMPILER },
            LineNumber := 1 } 2, []) := by
  have hEnd : ∀ Argument : String,
      getopt_long [Program, Argument] CHALK_OPTIONS_STRING ChalkLongOptions
          { optind := 2, nextchar := [] }
        = (-1, { optind := 2, nextchar := [] }) := by
    intro Argument
    simp [getopt_long]
  have hSum : ∀ Argument : String,
      (List.map (fun Argument : String => Argument.data.length + 1) [Program, Argument]).sum
        = (Program.data.length + Argument.data.length + 1) + 1 := by
    intro Argument
    simp only [List.map_cons, List.map_nil, List.sum_cons, List.sum_nil]
    omega
  refine ⟨fun Rest => ?_, fun Rest => ?_, fun Rest => ?_, fun Rest => ?_, ?_, ?_⟩
  · have h := getopt_long_unknown (Program :: "--version" :: Rest) CHALK_OPTIONS_STRING 1
      ['e', 'r', 's', 'i', 'o', 'n'] 'v' (by simp) (by decide) (by decide)
    rw [main_first_turn]
    simp only [main.loop, h]
    simp [CHALK_OPTION_DEBUG_GC, CHALK_OPTION_DEBUG_COMPILER]
  · have h : getopt_long (Program :: "-V" :: Rest) CHALK_OPTIONS_STRING ChalkLongOptions
        { optind := 1, nextchar := [] }
        = (('V'.toNat : Int), { optind := 2, nextchar := [] }) := by
      have hdata : ("-V" : String).data = ['-', 'V'] := by decide
      have hopt : CHALK_OPTIONS_STRING.data = ['h', 'V'] := by decide
      simp [getopt_long, hdata, hopt]
    rw [main_first_turn]
    simp only [main.loop, h]
    simp [CHALK_OPTION_DEBUG_GC, CHALK_OPTION_DEBUG_COMPILER]
  · have h := getopt_long_found (Program :: "--verbose" :: Rest) CHALK_OPTIONS_STRING 1
      ['e', 'r', 'b', 'o', 's', 'e'] 'v'
      { name := some "verbose", has_arg := no_argument, flag := none, val := ('v'.toNat : Int) }
      true (by simp) (by decide) (by decide) (by decide) rfl rfl
    rw [main_first_turn]
    simp only [main.loop, h]
    simp [CHALK_OPTION_DEBUG_GC, CHALK_OPTION_DEBUG_COMPILER]
  · have h := getopt_long_found (Program :: "--help" :: Rest) CHALK_OPTIONS_STRING 1
      ['e', 'l', 'p'] 'h'
      { name := some "help", has_arg := no_argument, flag := none, val := ('h'.toNat : Int) }
      true (by simp) (by decide) (by decide) (by decide) rfl rfl
    rw [main_first_turn]
    simp only [main.loop, h]
    simp [CHALK_OPTION_DEBUG_GC, CHALK_OPTION_DEBUG_COMPILER]
  · have h := getopt_long_found [Program, "--debug-gc"] CHALK_OPTIONS_STRING 1
      ['e', 'b', 'u', 'g', '-', 'g', 'c'] 'd'
      { name := some "debug-gc", has_arg := no_argument, flag := none,
        val := CHALK_OPTION_DEBUG_GC }
      true (by simp) (by decide) (by decide) (by decide) rfl rfl
    rw [main_first_turn, hSum, main.loop_debug_gc Headers _ _ _ _ _ _ h,
      main.loop_end Headers _ _ _ _ _ _ (hEnd _)]
  · have h := getopt_long_found [Program, "--debug-compiler"] CHALK_OPTIONS_STRING 1
      ['e', 'b', 'u', 'g', '-', 'c', 'o', 'm', 'p', 'i', 'l', 'e', 'r'] 'd'
      { name := some "debug-compiler", has_arg := no_argument, flag := none,
        val := CHALK_OPTION_DEBUG_COMPILER }
      true (by simp) (by decide) (by decide) (by decide) rfl rfl
    rw [main_first_turn, hSum, main.loop_debug_compiler Headers _ _ _ _ _ _ h,
      main.loop_end Headers _ _ _ _ _ _ (hEnd _)]

/-! ## Stack balance of `CkDeclareVariables` -/

/-- A name among the first components of the variables is bound. -/
theorem lookup_isSome_of_mem_names (Name : String) :
    ∀ Variables : List (String × CkValue), Name ∈ Variables.map Prod.fst →
      (Variables.lookup Name).isSome = true := by
  intro Variables
  induction Variables with
  | nil => intro h; simp at h
  | cons p rest ih =>
    intro h
    obtain ⟨n, v⟩ := p
    by_cases hEq : Name = n
    · subst hEq
      simp
    · have hbeq : (Name == n) = false := by simpa [beq_eq_false_iff_ne] using hEq
      have hrest : Name ∈ rest.map Prod.fst := by
        simp only [List.map_cons, List.mem_cons] at h
        rcases h with h | h
        · exact absurd h hEq
        · exact h
      simp [List.lookup_cons, hbeq, ih hrest]

/-- A descriptor with a valid tag whose `Value` is what the tag needs has a
binding. -/
theorem CkDeclareVariables.binding_isSome (Invoke : CK_INVOKE) (Vm : CK_VM) (Fiber : CK_FIBER)
    (Ref : Nat) (Variables : List (String × CkValue)) (Name : String)
    (Variable : CK_VARIABLE_DESCRIPTION) (Known : List String)
    (hKnown : ∀ n ∈ Known, (Variables.lookup n).isSome = true)
    (hTag : CkTypeNull ≤ Variable.ApiType ∧ Variable.ApiType ≤ CkTypeData)
    (hOk : CkDeclareVariables.valueOk Known Variable = true) :
    ∃ b, CkDeclareVariables.binding Invoke Vm Fiber Ref Variables Name Variable = some b := by
  unfold CkDeclareVariables.valueOk at hOk
  by_cases h7 : Variable.ApiType = CkTypeObject
  · have h3 : ¬ Variable.ApiType = CkTypeString := by
      rw [h7]
      decide
    rw [if_neg h3, if_pos h7] at hOk
    cases hv : Variable.Value with
    | cstring Constructor =>
      simp only [hv, List.contains_iff_exists_mem_beq] at hOk
      obtain ⟨n, hn, hEq⟩ := hOk
      have hEq1 : Constructor = n := by simpa using hEq
      subst hEq1
      obtain ⟨Callable, hl⟩ := Option.isSome_iff_exists.mp (hKnown Constructor hn)
      rw [CkDeclareVariables.binding_object Invoke Vm Fiber Ref Variables Name Constructor
        Callable Variable h7 hv hl]
      cases Invoke (CkDeclareVariables.callVm Vm Fiber Callable) Callable [] with
      | returned Result => exact ⟨_, rfl⟩
      | failed Error Left => exact ⟨_, rfl⟩
    | address a => simp [hv] at hOk
  · unfold CkDeclareVariables.binding
    split_ifs with h1 h2 h3 h4 h5 h6 h8
    · exact ⟨_, rfl⟩
    · exact ⟨_, rfl⟩
    · rw [if_pos h3] at hOk
      cases hv : Variable.Value with
      | cstring Text => exact ⟨_, rfl⟩
      | address a => simp [hv] at hOk
    · exact ⟨_, rfl⟩
    · exact ⟨_, rfl⟩
    · exact ⟨_, rfl⟩
    · exact ⟨_, rfl⟩
    · exfalso
      obtain ⟨hlo, hhi⟩ := hTag
      simp only [CkTypeNull, CkTypeInteger, CkTypeString, CkTypeDict, CkTypeList,
        CkTypeFunction, CkTypeObject, CkTypeData] at *
      omega

/-- The loop of `CkDeclareVariables` returns on a table that passes
`CkDeclareVariables.tableOk` and whose processed descriptors have valid tags,
for a non-negative module index that designates a module. -/
theorem CkDeclareVariables.loop_completes (Invoke : CK_INVOKE) (Slot Ref : Nat) :
    ∀ (Table : List CK_VARIABLE_DESCRIPTION) (Vm : CK_VM) (Fiber : CK_FIBER)
      (Variables : List (String × CkValue)) (Known : List String),
      Vm.Fiber = some Fiber →
      CkpGetModule Vm Fiber (Slot : Int) = some (Ref, Variables) →
      (∀ n ∈ Known, (Variables.lookup n).isSome = true) →
      (∀ d ∈ CkDeclareVariables.processed Table,
        CkTypeNull ≤ d.ApiType ∧ d.ApiType ≤ CkTypeData) →
      CkDeclareVariables.tableOk Known Table = true →
      ∃ Vm1, CkDeclareVariables.loop Invoke (Slot : Int) Vm Table = some Vm1 := by
  intro Table
  induction Table with
  | nil =>
    intro Vm Fiber Variables Known _ _ _ _ hOk
    simp [CkDeclareVariables.tableOk] at hOk
  | cons d rest ih =>
    intro Vm Fiber Variables Known hFiber hModule hKnown hTags hOk
    cases hName : d.Name with
    | none => exact ⟨Vm, CkDeclareVariables.loop_cons_null Invoke _ Vm d rest hName⟩
    | some Name =>
      have hproc : CkDeclareVariables.processed (d :: rest)
          = d :: CkDeclareVariables.processed rest := by
        simp [CkDeclareVariables.processed, List.takeWhile_cons, hName]
      rw [hproc] at hTags
      simp only [CkDeclareVariables.tableOk, hName, Bool.and_eq_true] at hOk
      obtain ⟨b, hb⟩ := CkDeclareVariables.binding_isSome Invoke Vm Fiber Ref Variables Name d
        Known hKnown (hTags d (List.mem_cons_self _ _)) hOk.1
      rw [CkDeclareVariables.loop_cons_named Invoke _ Vm d rest Name hName,
        CkDeclareVariables.body_eq Invoke Vm Fiber Slot Ref Variables Name d hFiber hModule, hb]
      simp only [Option.map_some', Option.some_bind]
      refine ih _ { Fiber with Error := b.2.1 } ((Name, b.1) :: Variables) (Name :: Known) rfl
        (CkpGetModule_after_body Vm Fiber Slot Ref Variables Name b.1 b.2.1 b.2.2 hModule)
        ?_ (fun d hd => hTags d (List.mem_cons_of_mem _ hd)) hOk.2
      intro n hn
      by_cases hEq : n = Name
      · subst hEq
        simp
      · have hbeq : (n == Name) = false := by simpa [beq_eq_false_iff_ne] using hEq
        have hn1 : n ∈ Known := by
          simp only [List.mem_cons] at hn
          rcases hn with hn | hn
          · exact absurd hn hEq
          · exact hn
        simp [List.lookup_cons, hbeq, hKnown n hn1]

/-- C12: for a module index that designates a module and a table whose
processed descriptors all carry one of the eight valid tags, the stack when
`CkDeclareVariables` returns is the stack at entry, so its size is the size at
entry; and `CkDeclareVariables` does return when the table has its `NULL` name
and the String and Object descriptors carry what their tag needs. In each
iteration the `switch` leaves exactly one more value on the stack and the bind
step `CkSetVariable` removes it; for an Object descriptor whose constructor
call fails that one value is null. -/
theorem CkDeclareVariables_stack_size (Invoke : CK_INVOKE) (Vm : CK_VM) (Fiber : CK_FIBER)
    (ModuleIndex : Int) (Slot Ref : Nat) (Variables : List (String × CkValue))
    (Table : List CK_VARIABLE_DESCRIPTION)
    (hFiber : Vm.Fiber = some Fiber)
    (hIndex : (ModuleIndex < 0 ∧ ModuleIndex + (Fiber.Stack.length : Int) = (Slot : Int)) ∨
      ModuleIndex = (Slot : Int))
    (hModule : CkpGetModule Vm Fiber (Slot : Int) = some (Ref, Variables))
    (hTags : ∀ d ∈ CkDeclareVariables.processed Table,
      CkTypeNull ≤ d.ApiType ∧ d.ApiType ≤ CkTypeData) :
    (∀ Vm1, CkDeclareVariables Invoke Vm ModuleIndex Table = some Vm1 →
      CkGetStackSize Vm1 = CkGetStackSize Vm ∧
      Vm1.Fiber.map (fun Fiber1 => Fiber1.Stack) = some Fiber.Stack) ∧
    (CkDeclareVariables.tableOk (Variables.map Prod.fst) Table = true →
      ∃ Vm1, CkDeclareVariables Invoke Vm ModuleIndex Table = some Vm1) ∧
    (∀ (VmK VmP : CK_VM) (FiberK : CK_FIBER) (VariablesK : List (String × CkValue))
      (Name : String) (Variable : CK_VARIABLE_DESCRIPTION),
      VmK.Fiber = some FiberK →
      CkpGetModule VmK FiberK (Slot : Int) = some (Ref, VariablesK) →
      CkDeclareVariables.push Invoke VmK (Slot : Int) Name Variable = some VmP →
      ∃ Value VmB,
        VmP.Fiber.map (fun FiberP => FiberP.Stack) = some (FiberK.Stack ++ [Value]) ∧
        CkGetStackSize VmP = some (FiberK.Stack.length + 1) ∧
        CkDeclareVariables.body Invoke (Slot : Int) VmK Name Variable = some VmB ∧
        CkSetVariable VmP (Slot : Int) Name = some VmB ∧
        VmB.Fiber.map (fun FiberB => FiberB.Stack) = some FiberK.Stack ∧
        CkGetStackSize VmB = some FiberK.Stack.length) ∧
    (∀ (VmK : CK_VM) (FiberK : CK_FIBER) (VariablesK : List (String × CkValue))
      (Name Constructor : String) (Variable : CK_VARIABLE_DESCRIPTION)
      (Callable Error Left : CkValue),
      VmK.Fiber = some FiberK →
      CkpGetModule VmK FiberK (Slot : Int) = some (Ref, VariablesK) →
      Variable.ApiType = CkTypeObject →
      Variable.Value = CK_POINTER.cstring Constructor →
      VariablesK.lookup Constructor = some Callable →
      Invoke (CkDeclareVariables.callVm VmK FiberK Callable) Callable []
        = CK_CALL_OUTCOME.failed Error Left →
      ∃ VmP, CkDeclareVariables.push Invoke VmK (Slot : Int) Name Variable = some VmP ∧
        VmP.Fiber.map (fun FiberP => FiberP.Stack) = some (FiberK.Stack ++ [CkValue.null])) := by
  have hLoop := fun T =>
    CkDeclareVariables_eq_loop Invoke Vm Fiber ModuleIndex Slot T hFiber hIndex
  refine ⟨?_, ?_, ?_, ?_⟩
  · intro Vm1 hRun
    rw [hLoop] at hRun
    obtain ⟨_, Error, hF1, _⟩ :=
      CkDeclareVariables.loop_spec Invoke Slot Ref _ Vm Vm1 Fiber Variables hFiber hModule hRun
    simp [CkGetStackSize, hF1, hFiber]
  · intro hOk
    rw [hLoop]
    exact CkDeclareVariables.loop_completes Invoke Slot Ref Table Vm Fiber Variables
      (Variables.map Prod.fst) hFiber hModule
      (fun n hn => lookup_isSome_of_mem_names n Variables hn) hTags hOk
  · intro VmK VmP FiberK VariablesK Name Variable hFiberK hModuleK hPush
    have hPushEq := CkDeclareVariables.push_eq Invoke VmK FiberK Slot Ref VariablesK Name
      Variable hFiberK hModuleK
    have hBodyEq := CkDeclareVariables.body_eq Invoke VmK FiberK Slot Ref VariablesK Name
      Variable hFiberK hModuleK
    cases hb : CkDeclareVariables.binding Invoke VmK FiberK Ref VariablesK Name Variable with
    | none =>
      rw [hPushEq, hb] at hPush
      simp at hPush
    | some b =>
      rw [hPushEq, hb] at hPush
      simp only [Option.map_some', Option.some.injEq] at hPush
      rw [hb] at hBodyEq
      simp only [Option.map_some'] at hBodyEq
      have hSet : CkSetVariable VmP (Slot : Int) Name
          = CkDeclareVariables.body Invoke (Slot : Int) VmK Name Variable := by
        unfold CkDeclareVariables.body
        rw [hPushEq, hb]
        simp only [Option.map_some']
        rw [hPush]
      refine ⟨b.1, _, ?_, ?_, hBodyEq, hSet.trans hBodyEq, ?_, ?_⟩
      · rw [← hPush]
        rfl
      · rw [← hPush]
        simp [CkGetStackSize]
      · rfl
      · rfl
  · intro VmK FiberK VariablesK Name Constructor Variable Callable Error Left hFiberK hModuleK
      hType hValue hBound hFail
    have hb := CkDeclareVariables.binding_object Invoke VmK FiberK Ref VariablesK Name
      Constructor Callable Variable hType hValue hBound
    rw [hFail] at hb
    rw [CkDeclareVariables.push_eq Invoke VmK FiberK Slot Ref VariablesK Name Variable hFiberK
      hModuleK, hb]
    exact ⟨_, rfl, rfl⟩

/-- C12 at `exampleModuleVm`: the table registers two functions, constructs an
object, meets a constructor that fails and binds an integer and a string; the
run returns and the stack has the three slots it had at entry. -/
theorem CkDeclareVariables_stack_size_witness :
    CkGetStackSize exampleModuleVm = some 3 ∧
      ∃ Vm1,
        CkDeclareVariables exampleInvoke exampleModuleVm (-2)
            [exampleMake, exampleBad, exampleObj, exampleBroken, exampleX, exampleS,
              exampleEnd] = some Vm1 ∧
        CkGetStackSize Vm1 = some 3 := by
  have h := CkDeclareVariables_stack_size exampleInvoke exampleModuleVm exampleModuleFiber (-2)
    1 0 []
    [exampleMake, exampleBad, exampleObj, exampleBroken, exampleX, exampleS, exampleEnd]
    rfl (Or.inl (by decide)) (by decide) (by decide)
  obtain ⟨Vm1, hVm1⟩ := h.2.1 (by decide)
  exact ⟨by decide, Vm1, hVm1, ((h.1 Vm1 hVm1).1).trans (by decide)⟩

end Chalk
